import Mathlib

/-!
Shallow embedding of the SeaBASS file reader/writer
(src/Seabass/SB_support_updated.py, class readSB) and proofs about it.

Python strings are modelled as Lean strings (lists of characters),
Python ints as ℤ, and Python floats as exact decimal values
(an inductive with a finite rational, nan, and signed infinity case);
float arithmetic in the source is limited to parsing decimal literals
and comparing for equality, which this model captures exactly for
decimal tokens.  Fallible code returns Except/Option.
-/

set_option autoImplicit false

namespace SeaBASS

abbrev Chars := List Char

/-- Characters treated as whitespace by Python str.strip and the regex class \s. -/
def isSpaceC (c : Char) : Bool :=
  c = ' ' ∨ c = '\t' ∨ c = '\n' ∨ c = '\r' ∨ c = '\x0b' ∨ c = '\x0c'

/-- Python str.strip(): drop whitespace from both ends. -/
def pyStripC (l : Chars) : Chars :=
  ((l.dropWhile isSpaceC).reverse.dropWhile isSpaceC).reverse

def pyStrip (s : String) : String := ⟨pyStripC s.data⟩

/-- Python substring containment: needle in hay. -/
def containsSubL (needle hay : Chars) : Bool :=
  hay.tails.any (fun t => needle.isPrefixOf t)

/-- Python `needle in hay` on strings. -/
def strContains (hay needle : String) : Bool := containsSubL needle.data hay.data

/-- Value of a string of decimal digits, most significant first. -/
def digitsToNat (l : Chars) : Nat := l.foldl (fun a c => 10 * a + (c.toNat - 48)) 0

/-- Decimal rendering of a natural, left-padded with zeros to width k. -/
def natPad (n k : Nat) : String :=
  let s := toString n
  ⟨List.replicate (k - s.length) '0' ++ s.data⟩

/-- Everything before the first occurrence of sep, and everything after it
(Python s.split(sep, 1)); none when sep does not occur. -/
def splitFirstC (sep : Char) : Chars → Option (Chars × Chars)
  | [] => none
  | c :: rest =>
    if c = sep then some ([], rest)
    else match splitFirstC sep rest with
      | none => none
      | some (a, b) => some (c :: a, b)

def splitFirst (s : String) (sep : Char) : Option (String × String) :=
  match splitFirstC sep s.data with
  | none => none
  | some (a, b) => some (⟨a⟩, ⟨b⟩)

/-- Python line.split(sep, 1)[1], defaulting to the whole string when sep is absent. -/
def afterFirst (s : String) (sep : Char) : String :=
  match splitFirst s sep with
  | none => s
  | some (_, b) => b

/-- Python line.split(sep, 1)[0]. -/
def beforeFirst (s : String) (sep : Char) : String :=
  match splitFirst s sep with
  | none => s
  | some (a, _) => a

/-- A Python float value: a finite (decimal-exact) rational, nan, or a signed infinity. -/
inductive PyFloat where
  | finite (q : ℚ)
  | nan
  | inf (neg : Bool)
  deriving DecidableEq, Repr

/-- A Python value held in a data cell: int, float, or str. -/
inductive PyVal where
  | int (i : ℤ)
  | float (f : PyFloat)
  | str (s : String)
  deriving DecidableEq, Repr

/-- Parse an optional leading sign; returns (negative?, rest). -/
def parseSign : Chars → Bool × Chars
  | '+' :: r => (false, r)
  | '-' :: r => (true, r)
  | r => (false, r)

/-- The decimal part of Python float(): digits [. digits] or . digits, returning
its exact rational value and the unconsumed rest. -/
def parseDec (l : Chars) : Option (ℚ × Chars) :=
  let ip := l.takeWhile Char.isDigit
  let r1 := l.dropWhile Char.isDigit
  match r1 with
  | '.' :: r2 =>
    let fp := r2.takeWhile Char.isDigit
    let r3 := r2.dropWhile Char.isDigit
    if ip = [] ∧ fp = [] then none
    else some ((digitsToNat ip : ℚ) + (digitsToNat fp : ℚ) / ((10 : ℚ) ^ fp.length), r3)
  | _ => if ip = [] then none else some ((digitsToNat ip : ℚ), r1)

/-- The optional exponent part of Python float(); the whole rest must be consumed. -/
def parseExp : Chars → Option ℤ
  | [] => some 0
  | e :: r =>
    if e = 'e' ∨ e = 'E' then
      let (neg, r2) := parseSign r
      let ds := r2.takeWhile Char.isDigit
      let r3 := r2.dropWhile Char.isDigit
      if ds = [] ∨ r3 ≠ [] then none
      else some (if neg then -(digitsToNat ds : ℤ) else (digitsToNat ds : ℤ))
    else none

/-- Python float(str) after stripping: sign, then inf/infinity/nan (case-insensitive)
or a decimal literal with optional exponent. -/
def parseFloatCore (l : Chars) : Option PyFloat :=
  let (neg, r) := parseSign l
  let low := r.map Char.toLower
  if low = "inf".data ∨ low = "infinity".data then some (.inf neg)
  else if low = "nan".data then some .nan
  else match parseDec r with
    | none => none
    | some (q, rest) =>
      match parseExp rest with
      | none => none
      | some e =>
        let v := q * (10 : ℚ) ^ e
        some (.finite (if neg then -v else v))

/-- Python float(str). -/
def parseFloat (s : String) : Option PyFloat := parseFloatCore (pyStripC s.data)

/-- Python int(str): optional sign, then digits only. -/
def parseIntChars (l : Chars) : Option ℤ :=
  let (neg, r) := parseSign l
  let ds := r.takeWhile Char.isDigit
  let rest := r.dropWhile Char.isDigit
  if ds = [] ∨ rest ≠ [] then none
  else some (if neg then -(digitsToNat ds : ℤ) else (digitsToNat ds : ℤ))

def parseInt (s : String) : Option ℤ := parseIntChars (pyStripC s.data)

/-- is_number from the source: float(s) succeeds. -/
def is_number (s : String) : Bool := (parseFloat s).isSome

/-- is_int from the source: int(s) succeeds. -/
def is_int (s : String) : Bool := (parseInt s).isSome

/-- Python == on two float values (nan compares unequal to everything). -/
def pyFloatEq : PyFloat → PyFloat → Bool
  | .finite a, .finite b => a = b
  | .inf a, .inf b => a = b
  | _, _ => false

def pyIsNan : PyFloat → Bool
  | .nan => true
  | _ => false

/-- Python float(cell) on a data cell: identity on numbers, parse on strings. -/
def floatOfV : PyVal → Option PyFloat
  | .int i => some (.finite (i : ℚ))
  | .float f => some f
  | .str s => parseFloat s

/-- Python == between a data cell and a float (no string coercion: a str
compares unequal to a float). -/
def pyValEqF : PyVal → PyFloat → Bool
  | .int i, .finite q => (i : ℚ) = q
  | .float (.finite a), .finite b => a = b
  | .float (.inf a), .inf b => a = b
  | _, _ => false

/-- Truncation toward zero, as Python int(float). -/
def ratTrunc (q : ℚ) : ℤ := if q < 0 then -(Rat.floor (-q)) else Rat.floor q

/-- Python int(x) on a data cell. -/
def pyInt : PyVal → Option ℤ
  | .int i => some i
  | .float (.finite q) => some (ratTrunc q)
  | .float _ => none
  | .str s => parseInt s

/-- Python truthiness of a data cell. -/
def pyTruthy : PyVal → Bool
  | .int i => i ≠ 0
  | .float (.finite q) => q ≠ 0
  | .float _ => true
  | .str s => s ≠ ""

/-- Smallest k with q * 10^k integral, when one exists up to 64. -/
def decExpQ (q : ℚ) : Option Nat :=
  (List.range 65).find? (fun k => (q * (10 : ℚ) ^ (k : ℕ)).den = 1)

/-- Python str() of a float: exact decimal rendering (scientific notation for very
large or very small magnitudes is not modelled; no parsed decimal token in the
covered code paths reaches it). -/
def pyStrF : PyFloat → String
  | .nan => "nan"
  | .inf false => "inf"
  | .inf true => "-inf"
  | .finite q =>
    match decExpQ q with
    | some 0 => toString q.num ++ ".0"
    | some (k + 1) =>
      let a := (q * (10 : ℚ) ^ ((k + 1 : ℕ))).num.natAbs
      (if q < 0 then "-" else "") ++ toString (a / 10 ^ (k + 1)) ++ "." ++
        natPad (a % 10 ^ (k + 1)) (k + 1)
    | none => toString q.num ++ "/" ++ toString q.den

/-- Python str() of a data cell. -/
def pyStr : PyVal → String
  | .int i => toString i
  | .float f => pyStrF f
  | .str s => s

/-! ## Ordered dictionaries as association lists

OrderedDict is modelled as an association list; assignment to an existing key
replaces the value in place, assignment to a new key appends. -/

def odLookup {α : Type} (k : String) : List (String × α) → Option α
  | [] => none
  | (k', v) :: rest => if k' = k then some v else odLookup k rest

def odUpdate {α : Type} : List (String × α) → String × α → List (String × α)
  | [], kv => [kv]
  | (k, v) :: rest, (k', v') =>
    if k = k' then (k, v') :: rest else (k, v) :: odUpdate rest (k', v')

def odFromList {α : Type} (l : List (String × α)) : List (String × α) :=
  l.foldl odUpdate []

/-- self.data[var].append(x): append to an existing column; none on a missing key
(a KeyError in the source). -/
def odAppendAt : List (String × List PyVal) → String → PyVal →
    Option (List (String × List PyVal))
  | [], _, _ => none
  | (k, col) :: rest, key, x =>
    if k = key then some ((k, col ++ [x]) :: rest)
    else match odAppendAt rest key x with
      | none => none
      | some rest' => some ((k, col) :: rest')

/-- Apply odAppendAt for each (key, value) pair in order. -/
def odAppendAll : List (String × List PyVal) → List (String × PyVal) →
    Option (List (String × List PyVal))
  | d, [] => some d
  | d, (k, x) :: rest =>
    match odAppendAt d k x with
    | none => none
    | some d' => odAppendAll d' rest

/-! ## Row decoding and sentinel masking (readSB.__init__, data section) -/

/-- Numeric coercion of a data token (lines 283-287 of the source): when
float(s) succeeds, the stored value is int(s) when that succeeds, else the
float value; none when the token is not a number. -/
def coerceToken (s : String) : Option PyVal :=
  match parseFloat s with
  | none => none
  | some f =>
    match parseInt s with
    | some i => some (.int i)
    | none => some (.float f)

/-- One masking step: when the flag is on and the sentinel is present and the
value equals it, replace with nan. A missing sentinel (the Python attribute
still holding the empty string) compares unequal to every number, which the
none branch mirrors. -/
def maskStep (flag : Bool) (sentinel : Option PyFloat) (v : PyVal) : PyVal :=
  if flag then
    match sentinel with
    | some s => if pyValEqF v s then .float .nan else v
    | none => v
  else v

/-- The three sequential masking steps of the source (above limit, below limit,
missing), in source order. -/
def maskNumeric (ma mb mm : Bool) (adl bdl missing : Option PyFloat) (v : PyVal) : PyVal :=
  maskStep mm missing (maskStep mb bdl (maskStep ma adl v))

/-- Equality of a value against an optional sentinel (false when absent). -/
def sentEq (v : PyVal) : Option PyFloat → Bool
  | some s => pyValEqF v s
  | none => false

/-- Full per-token processing of a data cell: numeric coercion then masking;
non-numeric tokens are stored as strings unchanged. -/
def processToken (ma mb mm : Bool) (adl bdl missing : Option PyFloat) (s : String) : PyVal :=
  match coerceToken s with
  | some v => maskNumeric ma mb mm adl bdl missing v
  | none => .str s

/-! ## The delimiter classes and re.split -/

inductive DelimRE where
  | comma
  | space
  | tab
  deriving DecidableEq, Repr

def delimChar (d : DelimRE) (c : Char) : Bool :=
  match d with
  | .comma => c = ','
  | .space => isSpaceC c
  | .tab => c = '\t'

/-- re.split on a one-character-class-plus pattern: split on maximal runs,
keeping empty pieces at the ends (re.split of ",+" on ",a," is ["", "a", ""]). -/
def splitRunsAux (isD : Char → Bool) : Bool → Chars → Chars → List Chars
  | _, buf, [] => [buf.reverse]
  | skip, buf, c :: rest =>
    if isD c then
      if skip then splitRunsAux isD true buf rest
      else buf.reverse :: splitRunsAux isD true [] rest
    else splitRunsAux isD false (c :: buf) rest

def pySplit (d : DelimRE) (line : String) : List String :=
  (splitRunsAux (delimChar d) false [] line.data).map (fun l => (⟨l⟩ : String))

/-! ## The parse state and the per-line transition (readSB.__init__) -/

/-- The unit attachment of a parsed file: field name paired with its unit when a
units list was present, or the bare field name when the units list was absent. -/
inductive VarVal where
  | pair (name unit : String)
  | solo (name : String)
  deriving DecidableEq, Repr

structure Config where
  mask_missing : Bool := true
  mask_above_detection_limit : Bool := true
  mask_below_detection_limit : Bool := true
  no_warn : Bool := false
  mask_commented_headers : Bool := true
  deriving Repr

/-- The state of a readSB instance, together with the local variables of
__init__ (field list, unit list, delimiter, end-of-header flag).  Warnings
printed by the source are accumulated in warnings. -/
structure SB where
  filename : String := ""
  headers : List (String × String) := []
  comments : List String := []
  variablesMap : List (String × VarVal) := []
  data : List (String × List PyVal) := []
  missing : Option PyFloat := none
  adl : Option PyFloat := none
  bdl : Option PyFloat := none
  pi : String := ""
  length : Nat := 0
  empty_col : List String := []
  data_use_warning : Bool := false
  varsOpt : Option (List String) := none
  unitsOpt : Option (List String) := none
  delimP : Option DelimRE := none
  endHeader : Bool := false
  warnings : List String := []
  deriving Repr

def SB.hasField (sb : SB) (k : String) : Bool := (odLookup k sb.data).isSome

def SB.col (sb : SB) (k : String) : List PyVal := (odLookup k sb.data).getD []

def SB.hasHeader (sb : SB) (k : String) : Bool := (odLookup k sb.headers).isSome

def SB.hdr (sb : SB) (k : String) : String := (odLookup k sb.headers).getD ""

/-- Header key/value extraction (source lines 161-177). -/
def headerStage (st : SB) (line : String) : Except String SB :=
  if !st.endHeader && !strContains line.toLower "/begin_header" &&
      !strContains line.toLower "/end_header" && !strContains line "!" && line ≠ "" then
    match splitFirst line '=' with
    | some (h, v) =>
      .ok { st with headers := odUpdate st.headers ((h.toLower.drop 1), v) }
    | none =>
      .error ("Unable to parse header key/value pair. Is this a SeaBASS file: " ++
        st.filename ++ " Line: " ++ line)
  else .ok st

/-- /fields= extraction (source lines 181-189): sets the field list and makes
each named column empty. -/
def fieldsStage (st : SB) (line : String) : SB :=
  if strContains line.toLower "/fields=" && !strContains line "!" then
    let vs := ((afterFirst line '=').toLower).splitOn ","
    { st with varsOpt := some vs,
              data := vs.foldl (fun d v => odUpdate d (v, [])) st.data }
  else st

/-- /units= extraction (source lines 192-193). -/
def unitsStage (st : SB) (line : String) : SB :=
  if strContains line.toLower "/units=" && !strContains line "!" then
    { st with unitsOpt := some (((afterFirst line '=').toLower).splitOn ",") }
  else st

/-- /missing= extraction (source lines 196-202). -/
def missingStage (st : SB) (line : String) : Except String SB :=
  if strContains line.toLower "/missing=" && !strContains line "!" then
    match parseFloat (afterFirst line '=') with
    | some f => .ok { st with missing := some f }
    | none =>
      .error ("Unable to parse /missing value in file: " ++ st.filename ++
        ". In line: " ++ line)
  else .ok st

/-- /data_use_warning= extraction (source lines 205-206). -/
def duwStage (st : SB) (line : String) : SB :=
  if strContains line.toLower "/data_use_warning=" && !strContains line "!" then
    { st with data_use_warning := true }
  else st

/-- /below_detection_limit= extraction (source lines 209-215). -/
def bdlStage (st : SB) (line : String) : Except String SB :=
  if strContains line.toLower "/below_detection_limit=" && !strContains line "!" then
    match parseFloat (afterFirst line '=') with
    | some f => .ok { st with bdl := some f }
    | none =>
      .error ("Unable to parse /below_detection_limit value in file: " ++ st.filename ++
        ". In line: " ++ line)
  else .ok st

/-- /above_detection_limit= extraction (source lines 218-224). -/
def adlStage (st : SB) (line : String) : Except String SB :=
  if strContains line.toLower "/above_detection_limit=" && !strContains line "!" then
    match parseFloat (afterFirst line '=') with
    | some f => .ok { st with adl := some f }
    | none =>
      .error ("Unable to parse /above_detection_limit value in file: " ++ st.filename ++
        ". In line: " ++ line)
  else .ok st

/-- /investigators= extraction (source lines 227-228). -/
def piStage (st : SB) (line : String) : SB :=
  if strContains line.toLower "/investigators=" && !strContains line "!" then
    { st with pi := beforeFirst (afterFirst line '=') ',' }
  else st

/-- /delimiter= extraction (source lines 231-240). -/
def delimStage (st : SB) (line : String) : Except String SB :=
  if strContains line.toLower "/delimiter=" && !strContains line "!" then
    if strContains line.toLower "comma" then .ok { st with delimP := some .comma }
    else if strContains line.toLower "space" then .ok { st with delimP := some .space }
    else if strContains line.toLower "tab" then .ok { st with delimP := some .tab }
    else
      .error ("Invalid delimiter detected in file: " ++ st.filename ++
        ". In line: " ++ line)
  else .ok st

/-- Comment collection (source lines 242-249).  Note the conditions use
substring containment, not a starts-with test, and strip the first character
of the line, whatever it is. -/
def commentStage (cfg : Config) (st : SB) (line : String) : SB :=
  if cfg.mask_commented_headers then
    if strContains line "!" && !strContains line "!/" then
      { st with comments := st.comments ++ [line.drop 1] }
    else st
  else
    if strContains line "!" then
      { st with comments := st.comments ++ [line.drop 1] }
    else st

/-- End-of-header checks (source lines 251-277); the returned flag is true when
the line contained the terminator, in which case the data stage is skipped
(the source's continue). An unbound local delimiter or field list is an
UnboundLocalError in Python. -/
def endHeaderStage (cfg : Config) (st : SB) (line : String) : Except String (SB × Bool) :=
  if strContains line.toLower "/end_header" then
    match st.delimP with
    | none => .error "UnboundLocalError: local variable referenced before assignment"
    | some _ =>
      if st.missing = none ∨ st.missing = some (.finite 0) then
        .error ("No valid /missing value detected in file: " ++ st.filename)
      else
        match st.varsOpt with
        | none => .error "UnboundLocalError: local variable referenced before assignment"
        | some _ =>
          let w1 := if st.data_use_warning && !cfg.no_warn then
              ["Warning: data_use_warning header is present in file: " ++ st.filename]
            else []
          let w2 := if cfg.mask_above_detection_limit && !cfg.no_warn &&
              (st.adl = none ∨ st.adl = some (.finite 0)) then
              ["Warning: No above_detection_limit in file: " ++ st.filename]
            else []
          let w3 := if cfg.mask_below_detection_limit && !cfg.no_warn &&
              (st.bdl = none ∨ st.bdl = some (.finite 0)) then
              ["Warning: No below_detection_limit in file: " ++ st.filename]
            else []
          .ok ({ st with endHeader := true, warnings := st.warnings ++ w1 ++ w2 ++ w3 }, true)
  else .ok (st, false)

/-- Data-row decoding (source lines 279-306): split on the delimiter, zip the
tokens against the field list (silently truncating to the shorter), coerce and
mask each token, append to its column, and bump the row count. -/
def dataStage (cfg : Config) (st : SB) (line : String) : Except String SB :=
  if st.endHeader && line ≠ "" then
    match st.varsOpt, st.delimP with
    | some vs, some dl =>
      let toks := (pySplit dl line).map
        (processToken cfg.mask_above_detection_limit cfg.mask_below_detection_limit
          cfg.mask_missing st.adl st.bdl st.missing)
      match odAppendAll st.data (vs.zip toks) with
      | some d' => .ok { st with data := d', length := st.length + 1 }
      | none =>
        .error ("Unable to parse data from line in file: " ++ st.filename ++
          ". In line: " ++ line)
    | _, _ =>
      .error "UnboundLocalError: local variable referenced before assignment"
  else .ok st

/-- The full transition for one (already normalized) input line, in the
source's statement order. -/
def lineStep (cfg : Config) (st : SB) (line : String) : Except String SB := do
  let st ← headerStage st line
  let st := fieldsStage st line
  let st := unitsStage st line
  let st ← missingStage st line
  let st := duwStage st line
  let st ← bdlStage st line
  let st ← adlStage st line
  let st := piStage st line
  let st ← delimStage st line
  let st := commentStage cfg st line
  match ← endHeaderStage cfg st line with
  | (st, true) => .ok st
  | (st, false) => dataStage cfg st line

def runLines (cfg : Config) : SB → List String → Except String SB
  | st, [] => .ok st
  | st, l :: rest =>
    match lineStep cfg st l with
    | .error e => .error e
    | .ok st' => runLines cfg st' rest

/-- The final variables assignment (source lines 308-315): zip of fields with
(field, unit) pairs when both lists exist (truncating silently on a length
mismatch); when the units list was never bound the except branch warns and maps
each field to its bare name; when the field list was never bound the except
branch itself hits the unbound local and the constructor fails. -/
def finalizeVars (cfg : Config) (st : SB) : Except String SB :=
  match st.varsOpt with
  | none => .error "UnboundLocalError: local variable referenced before assignment"
  | some vs =>
    match st.unitsOpt with
    | some us =>
      let vm := odFromList (List.zipWith (fun v u => (v, VarVal.pair v u)) vs us)
      .ok { st with variablesMap := vm }
    | none =>
      .ok { st with
        variablesMap := odFromList (vs.map fun v => (v, VarVal.solo v)),
        warnings := st.warnings ++
          (if cfg.no_warn then [] else
            ["Warning: No valid units were detected in file: " ++ st.filename]) }

/-- Line normalization (source line 159): remove carriage returns and newlines,
then strip surrounding whitespace. -/
def normalizeLine (s : String) : String :=
  pyStrip ⟨s.data.filter (fun c => c ≠ '\r' ∧ c ≠ '\n')⟩

/-- readSB.__init__ on the lines of a file. -/
def readSB (cfg : Config) (filename : String) (rawLines : List String) : Except String SB :=
  match runLines cfg { filename := filename } (rawLines.map normalizeLine) with
  | .error e => .error e
  | .ok st => finalizeVars cfg st

/-! ## The regular-expression searches of fd_datetime

dateRegex is 8 consecutive digits captured as 4+2+2; timeRegex is
(\d\x7b1,2\x7d):(\d\x7b2\x7d):(\d\x7b2\x7d) with an optional fractional group of
a dot and 1 to 6 digits.  re.search takes the leftmost match; at a given start
the 1-or-2-digit hour is greedy, trying two digits before one. -/

/-- Match the date pattern at the start of the char list. -/
def matchDateAt : Chars → Option (Nat × Nat × Nat)
  | a :: b :: c :: d :: e :: f :: g :: h :: _ =>
    if [a, b, c, d, e, f, g, h].all Char.isDigit then
      some (digitsToNat [a, b, c, d], digitsToNat [e, f], digitsToNat [g, h])
    else none
  | _ => none

/-- re.search of the date pattern: leftmost match. -/
def searchDate : Chars → Option (Nat × Nat × Nat)
  | [] => none
  | c :: rest =>
    match matchDateAt (c :: rest) with
    | some g => some g
    | none => searchDate rest

/-- The captured groups of a time match: hour, minute, second, and the optional
fractional group (including its leading dot). -/
structure Tm where
  h : Nat
  mi : Nat
  s : Nat
  frac : Option Chars
  deriving DecidableEq, Repr

/-- The optional fractional group: a dot followed by 1 to 6 digits, greedy. -/
def grabFrac : Chars → Option Chars
  | '.' :: rest =>
    let ds := (rest.takeWhile Char.isDigit).take 6
    if ds = [] then none else some ('.' :: ds)
  | _ => none

/-- Time pattern with a two-digit hour at the start of the list. -/
def matchTime2 : Chars → Option Tm
  | a :: b :: ':' :: c :: d :: ':' :: e :: f :: rest =>
    if [a, b, c, d, e, f].all Char.isDigit then
      some ⟨digitsToNat [a, b], digitsToNat [c, d], digitsToNat [e, f], grabFrac rest⟩
    else none
  | _ => none

/-- Time pattern with a one-digit hour at the start of the list. -/
def matchTime1 : Chars → Option Tm
  | a :: ':' :: c :: d :: ':' :: e :: f :: rest =>
    if [a, c, d, e, f].all Char.isDigit then
      some ⟨digitsToNat [a], digitsToNat [c, d], digitsToNat [e, f], grabFrac rest⟩
    else none
  | _ => none

/-- re.search of the time pattern: leftmost match, two-digit hour first. -/
def searchTime : Chars → Option Tm
  | [] => none
  | c :: rest =>
    match matchTime2 (c :: rest) with
    | some g => some g
    | none =>
      match matchTime1 (c :: rest) with
      | some g => some g
      | none => searchTime rest

/-- Literal suffix (gmt|GMT) in brackets, as in the /start_time header pattern. -/
def gmtOk (l : Chars) : Bool :=
  "[gmt]".data.isPrefixOf l || "[GMT]".data.isPrefixOf l

/-- Backtracking over the greedy fractional-digit count (k digits, then k-1,
down to 1), looking for the bracketed suffix right after. -/
def fracBack (ds tail : Chars) : Nat → Option (Option Chars)
  | 0 => none
  | k + 1 =>
    if gmtOk (ds.drop (k + 1) ++ tail) then some (some ('.' :: ds.take (k + 1)))
    else fracBack ds tail k

/-- The optional fractional group followed by the bracketed gmt suffix. -/
def matchFracGmt (rest : Chars) : Option (Option Chars) :=
  match rest with
  | '.' :: r2 =>
    let ds := r2.takeWhile Char.isDigit
    let tail := r2.dropWhile Char.isDigit
    match fracBack ds tail (min 6 ds.length) with
    | some g => some g
    | none => if gmtOk rest then some none else none
  | _ => if gmtOk rest then some none else none

def matchTimeGmt2 : Chars → Option Tm
  | a :: b :: ':' :: c :: d :: ':' :: e :: f :: rest =>
    if [a, b, c, d, e, f].all Char.isDigit then
      match matchFracGmt rest with
      | some g4 => some ⟨digitsToNat [a, b], digitsToNat [c, d], digitsToNat [e, f], g4⟩
      | none => none
    else none
  | _ => none

def matchTimeGmt1 : Chars → Option Tm
  | a :: ':' :: c :: d :: ':' :: e :: f :: rest =>
    if [a, c, d, e, f].all Char.isDigit then
      match matchFracGmt rest with
      | some g4 => some ⟨digitsToNat [a], digitsToNat [c, d], digitsToNat [e, f], g4⟩
      | none => none
    else none
  | _ => none

/-- re.search of the time-with-gmt pattern of the /start_time header rule. -/
def searchTimeGmt : Chars → Option Tm
  | [] => none
  | c :: rest =>
    match matchTimeGmt2 (c :: rest) with
    | some g => some g
    | none =>
      match matchTimeGmt1 (c :: rest) with
      | some g => some g
      | none => searchTimeGmt rest

/-! ## Fractional seconds and day-of-year conversion -/

/-- readSB.millisecondToMicrosecond: append zeros while the length is below 6.
The loop runs at most 6 times, which the fuel argument makes structural. -/
def msToUsAux : Nat → Chars → Chars
  | 0, l => l
  | n + 1, l => if l.length < 6 then msToUsAux n (l ++ ['0']) else l

def msToUs (l : Chars) : Chars := msToUsAux 6 l

def msToUsS (s : String) : String := ⟨msToUs s.data⟩

/-- The microsecond digit string built from the captured fractional group
(source lines 368-372): strip the dot, or take "0" when absent, then pad. -/
def fracMicro (g4 : Option Chars) : Chars :=
  msToUs (match g4 with
    | some g => g.filter (fun c => c ≠ '.')
    | none => ['0'])

/-- Gregorian leap year. -/
def isLeap (y : ℤ) : Bool := y % 4 = 0 ∧ (y % 100 ≠ 0 ∨ y % 400 = 0)

def monthLengths (leap : Bool) : List ℤ :=
  [31, if leap then 29 else 28, 31, 30, 31, 30, 31, 31, 30, 31, 30, 31]

def daysInYear (y : ℤ) : ℤ := if isLeap y then 366 else 365

/-- Scan the month lengths, turning a day-of-year into (month, day). -/
def mdOfDoyAux : List ℤ → ℤ → ℤ → ℤ × ℤ
  | [], m, d => (m, d)
  | len :: rest, m, d => if d ≤ len then (m, d) else mdOfDoyAux rest (m + 1) (d - len)

def mdOfDoy (leap : Bool) (doy : ℤ) : ℤ × ℤ := mdOfDoyAux (monthLengths leap) 1 doy

/-- doy2mndy from the source: format year and julian day as %Y%j and parse with
strptime, extracting month and day.  Both arguments must be Python ints (the
d format code rejects floats and strings); the year must render as exactly four
digits and the day as a value strptime's %j accepts (1-366).  strptime rolls
day 366 of a non-leap year over to January 1 of the following year, except when
that overflows the supported year range. -/
def doy2mndy (yv dv : PyVal) : Except String (ℤ × ℤ) :=
  match yv, dv with
  | .int y, .int d =>
    if 1 ≤ y ∧ y ≤ 9999 then
      if 1 ≤ d ∧ d ≤ daysInYear y then .ok (mdOfDoy (isLeap y) d)
      else if d = 366 then
        if y = 9999 then .error "ValueError: ordinal out of range"
        else .ok (1, 1)
      else .error "ValueError: time data does not match format"
    else .error "ValueError: time data does not match format"
  | _, _ => .error "ValueError: unknown format code d"

/-! ## Python datetime construction -/

structure PyDateTime where
  year : ℤ
  month : ℤ
  day : ℤ
  hour : ℤ
  minute : ℤ
  second : ℤ
  microsecond : ℤ
  deriving DecidableEq, Repr

def daysInMonthZ (y m : ℤ) : ℤ := (monthLengths (isLeap y)).getD (m - 1).toNat 31

/-- The datetime constructor: validates every component, none on ValueError. -/
def mkDatetime (y mo d h mi s us : ℤ) : Option PyDateTime :=
  if 1 ≤ y ∧ y ≤ 9999 ∧ 1 ≤ mo ∧ mo ≤ 12 ∧ 1 ≤ d ∧ d ≤ daysInMonthZ y mo ∧
      0 ≤ h ∧ h ≤ 23 ∧ 0 ≤ mi ∧ mi ≤ 59 ∧ 0 ≤ s ∧ s ≤ 59 ∧ 0 ≤ us ∧ us ≤ 999999 then
    some ⟨y, mo, d, h, mi, s, us⟩
  else none

/-! ## The date/time reconstruction rules (fd_datetime branches, in source order) -/

def exceptMap {α β : Type} (f : α → Except String β) : List α → Except String (List β)
  | [] => .ok []
  | a :: as =>
    match f a with
    | .error e => .error e
    | .ok b =>
      match exceptMap f as with
      | .error e => .error e
      | .ok bs => .ok (b :: bs)

def errRule (what fname : String) : String :=
  "ValueError: " ++ what ++ " not formatted correctly; unable to parse in file: " ++ fname

def typeErr : String := "TypeError: expected string or bytes-like object"

/-- str(x).split('.')[0] for each entry of the second column. -/
def secondParts (secs : List PyVal) : List String :=
  secs.map (fun x => ((pyStr x).splitOn ".").headD "")

/-- The millisecond comprehension of the source: the padded fractional part of
str(x) when it contains a dot, else the integer 0 (modelled as none). -/
def msParts (secs : List PyVal) : List (Option String) :=
  secs.map (fun x =>
    if (pyStr x).contains '.' then some (msToUsS (((pyStr x).splitOn ".").getD 1 ""))
    else none)

/-- int() of a millisecond entry: parse the padded string, or 0. -/
def msVal : Option String → Option ℤ
  | some s => parseInt s
  | none => some 0

/-- Rule date/time (source lines 361-382). -/
def ruleDateTime (fname : String) (dates times : List PyVal) :
    Except String (List PyDateTime) :=
  exceptMap
    (fun p =>
      let da := searchDate p.1.data
      match p.2 with
      | .str ts =>
        match searchTime ts.data with
        | none => .error (errRule "date/time fields" fname)
        | some tg =>
          match da with
          | none => .error (errRule "date/time fields" fname)
          | some (y, mo, dd) =>
            match mkDatetime y mo dd tg.h tg.mi tg.s (digitsToNat (fracMicro tg.frac)) with
            | some dtv => .ok dtv
            | none => .error (errRule "date/time fields" fname)
      | _ => .error typeErr)
    ((dates.map pyStr).zip times)

/-- Rule year/month/day/hour/minute/second (source lines 384-403). -/
def ruleYMDHMS (fname : String) (ys mos ds hs mis secs : List PyVal) :
    Except String (List PyDateTime) :=
  let sec := secondParts secs
  let mic := msParts secs
  exceptMap
    (fun t =>
      match t with
      | (y, m, d, h, mi2, s2, ms2) =>
        match pyInt y, pyInt m, pyInt d, pyInt h, pyInt mi2, parseInt s2, msVal ms2 with
        | some yi, some moi, some di, some hi, some mni, some si, some msi =>
          match mkDatetime yi moi di hi mni si msi with
          | some dtv => .ok dtv
          | none => .error (errRule "year/month/day/hour/minute/second fields" fname)
        | _, _, _, _, _, _, _ =>
          .error (errRule "year/month/day/hour/minute/second fields" fname))
    (ys.zip (mos.zip (ds.zip (hs.zip (mis.zip (sec.zip mic))))))

/-- Rule year/month/day/time (source lines 405-427). -/
def ruleYMDTime (fname : String) (ys mos ds times : List PyVal) :
    Except String (List PyDateTime) :=
  exceptMap
    (fun t =>
      match t with
      | (y, m, d, tv) =>
        match tv with
        | .str ts =>
          match searchTime ts.data with
          | none => .error (errRule "year/month/day/time fields" fname)
          | some tg =>
            match pyInt y, pyInt m, pyInt d with
            | some yi, some moi, some di =>
              match mkDatetime yi moi di tg.h tg.mi tg.s (digitsToNat (fracMicro tg.frac)) with
              | some dtv => .ok dtv
              | none => .error (errRule "year/month/day/time fields" fname)
            | _, _, _ => .error (errRule "year/month/day/time fields" fname)
        | _ => .error typeErr)
    (ys.zip (mos.zip (ds.zip times)))

/-- Rule date/hour/minute/second (source lines 429-447). -/
def ruleDateHMS (fname : String) (dates hs mis secs : List PyVal) :
    Except String (List PyDateTime) :=
  let sec := secondParts secs
  let mic := msParts secs
  exceptMap
    (fun t =>
      match t with
      | (dstr, h, mi2, s2, ms2) =>
        match searchDate (String.data dstr) with
        | none => .error (errRule "date/hour/minute/second fields" fname)
        | some (y, mo, dd) =>
          match pyInt h, pyInt mi2, parseInt s2, msVal ms2 with
          | some hi, some mni, some si, some msi =>
            match mkDatetime y mo dd hi mni si msi with
            | some dtv => .ok dtv
            | none => .error (errRule "date/hour/minute/second fields" fname)
          | _, _, _, _ => .error (errRule "date/hour/minute/second fields" fname))
    ((dates.map pyStr).zip (hs.zip (mis.zip (sec.zip mic))))

/-- Rule date_time (source lines 449-468): the source calls self.data as a
function, which is a TypeError on every entry into this branch. -/
def ruleDateTimeCol : Except String (List PyDateTime) :=
  .error "TypeError: OrderedDict object is not callable"

/-- Rule year/sdy/hour/minute/second (source lines 470-490): the loop's first
statement (line 479) calls doy2mndy, a local of the initializer that is not in
scope at method level, and the call sits outside the try block, so the first
iteration raises an uncaught NameError; an empty zip skips the loop and yields
an empty result. -/
def ruleYSdyHMS (ys sdys hs mis secs : List PyVal) :
    Except String (List PyDateTime) :=
  let sec := secondParts secs
  let mic := msParts secs
  match ys.zip (sdys.zip (hs.zip (mis.zip (sec.zip mic)))) with
  | [] => .ok []
  | _ :: _ => .error "NameError: name doy2mndy is not defined"

/-- Rule year/sdy/time (source lines 492-514): the loop's first statement
(line 497) calls doy2mndy, a local of the initializer, outside the try block,
so the first iteration raises an uncaught NameError; an empty zip yields an
empty result. -/
def ruleYSdyTime (ys sdys times : List PyVal) :
    Except String (List PyDateTime) :=
  match ys.zip (sdys.zip times) with
  | [] => .ok []
  | _ :: _ => .error "NameError: name doy2mndy is not defined"

/-- Rule start_date header with time column (source lines 516-537): the source
swaps the two patterns (timeRegex against the date header, dateRegex against
the time cells) and then asks for a fourth group the date pattern does not
have, so every non-empty iteration fails: an IndexError or AttributeError
caught and re-raised as the rule's ValueError, or a TypeError on non-string
cells. -/
def ruleStartDateTimeCol (fname : String) (startDate : String) (times : List PyVal) :
    Except String (List PyDateTime) :=
  let _da := searchTime startDate.data
  exceptMap
    (fun tv =>
      match tv with
      | PyVal.str _ => .error (errRule "start_date header and time field" fname)
      | _ => .error typeErr)
    times

/-- Rule start_date header with hour/minute/second columns (source lines
539-557). -/
def ruleStartDateHMS (fname : String) (startDate : String) (hs mis secs : List PyVal) :
    Except String (List PyDateTime) :=
  let sec := secondParts secs
  let mic := msParts secs
  let da := searchDate startDate.data
  exceptMap
    (fun t =>
      match t with
      | (h, mi2, s2, ms2) =>
        match da with
        | none => .error (errRule "start_date header and hour/minute/second field" fname)
        | some (y, mo, dd) =>
          match pyInt h, pyInt mi2, parseInt s2, msVal ms2 with
          | some hi, some mni, some si, some msi =>
            match mkDatetime y mo dd hi mni si msi with
            | some dtv => .ok dtv
            | none => .error (errRule "start_date header and hour/minute/second field" fname)
          | _, _, _, _ =>
            .error (errRule "start_date header and hour/minute/second field" fname))
    (hs.zip (mis.zip (sec.zip mic)))

/-- Rule year/month/day/hour/minute (source lines 559-575). -/
def ruleYMDHM (fname : String) (ys mos ds hs mis : List PyVal) :
    Except String (List PyDateTime) :=
  exceptMap
    (fun t =>
      match t with
      | (y, m, d, h, mi2) =>
        match pyInt y, pyInt m, pyInt d, pyInt h, pyInt mi2 with
        | some yi, some moi, some di, some hi, some mni =>
          match mkDatetime yi moi di hi mni 0 0 with
          | some dtv => .ok dtv
          | none => .error (errRule "year/month/day/hour/minute fields" fname)
        | _, _, _, _, _ => .error (errRule "year/month/day/hour/minute fields" fname))
    (ys.zip (mos.zip (ds.zip (hs.zip mis))))

/-- Rule date/hour/minute (source lines 577-592). -/
def ruleDateHM (fname : String) (dates hs mis : List PyVal) :
    Except String (List PyDateTime) :=
  exceptMap
    (fun t =>
      match t with
      | (dstr, h, mi2) =>
        match searchDate (String.data dstr) with
        | none => .error (errRule "date/hour/minute fields" fname)
        | some (y, mo, dd) =>
          match pyInt h, pyInt mi2 with
          | some hi, some mni =>
            match mkDatetime y mo dd hi mni 0 0 with
            | some dtv => .ok dtv
            | none => .error (errRule "date/hour/minute fields" fname)
          | _, _ => .error (errRule "date/hour/minute fields" fname))
    ((dates.map pyStr).zip (hs.zip mis))

/-- Rule year/sdy/hour/minute (source lines 594-610): the loop's first
statement (line 600) calls doy2mndy, a local of the initializer, outside the
try block, so the first iteration raises an uncaught NameError; an empty zip
yields an empty result. -/
def ruleYSdyHM (ys sdys hs mis : List PyVal) :
    Except String (List PyDateTime) :=
  match ys.zip (sdys.zip (hs.zip mis)) with
  | [] => .ok []
  | _ :: _ => .error "NameError: name doy2mndy is not defined"

/-- Rule year/month/day/hour (source lines 612-627). -/
def ruleYMDH (fname : String) (ys mos ds hs : List PyVal) :
    Except String (List PyDateTime) :=
  exceptMap
    (fun t =>
      match t with
      | (y, m, d, h) =>
        match pyInt y, pyInt m, pyInt d, pyInt h with
        | some yi, some moi, some di, some hi =>
          match mkDatetime yi moi di hi 0 0 0 with
          | some dtv => .ok dtv
          | none => .error (errRule "year/month/day/hour fields" fname)
        | _, _, _, _ => .error (errRule "year/month/day/hour fields" fname))
    (ys.zip (mos.zip (ds.zip hs)))

/-- Rule date/hour (source lines 629-643). -/
def ruleDateH (fname : String) (dates hs : List PyVal) :
    Except String (List PyDateTime) :=
  exceptMap
    (fun t =>
      match t with
      | (dstr, h) =>
        match searchDate (String.data dstr) with
        | none => .error (errRule "date/hour fields" fname)
        | some (y, mo, dd) =>
          match pyInt h with
          | some hi =>
            match mkDatetime y mo dd hi 0 0 0 with
            | some dtv => .ok dtv
            | none => .error (errRule "date/hour fields" fname)
          | none => .error (errRule "date/hour fields" fname))
    ((dates.map pyStr).zip hs)

/-- Rule year/sdy/hour (source lines 645-660): the loop's first statement
(line 650) calls doy2mndy, a local of the initializer, outside the try block,
so the first iteration raises an uncaught NameError; an empty zip yields an
empty result. -/
def ruleYSdyH (ys sdys hs : List PyVal) :
    Except String (List PyDateTime) :=
  match ys.zip (sdys.zip hs) with
  | [] => .ok []
  | _ :: _ => .error "NameError: name doy2mndy is not defined"

/-- Rule year/month/day (source lines 662-676). -/
def ruleYMD (fname : String) (ys mos ds : List PyVal) :
    Except String (List PyDateTime) :=
  exceptMap
    (fun t =>
      match t with
      | (y, m, d) =>
        match pyInt y, pyInt m, pyInt d with
        | some yi, some moi, some di =>
          match mkDatetime yi moi di 0 0 0 0 with
          | some dtv => .ok dtv
          | none => .error (errRule "year/month/day fields" fname)
        | _, _, _ => .error (errRule "year/month/day fields" fname))
    (ys.zip (mos.zip ds))

/-- Rule date only (source lines 678-691): the source iterates over
zip(list), so each loop variable is a one-element tuple and re.search raises a
TypeError on the first row; an empty column yields an empty result. -/
def ruleDateOnly (dates : List PyVal) : Except String (List PyDateTime) :=
  match dates with
  | [] => .ok []
  | _ :: _ => .error typeErr

/-- Rule year/sdy (source lines 693-707): the loop's first statement (line
697) calls doy2mndy, a local of the initializer, outside the try block, so the
first iteration raises an uncaught NameError; an empty zip yields an empty
result. -/
def ruleYSdy (ys sdys : List PyVal) :
    Except String (List PyDateTime) :=
  match ys.zip sdys with
  | [] => .ok []
  | _ :: _ => .error "NameError: name doy2mndy is not defined"

/-- Rule start_date and start_time headers (source lines 709-729): one derived
timestamp broadcast to every row. -/
def ruleStartDates (fname : String) (startDate startTime : String) (len : Nat) :
    Except String (List PyDateTime) :=
  let da := searchDate startDate.data
  let ti := searchTimeGmt startTime.data
  if len = 0 then .ok []
  else
    match ti with
    | none => .error (errRule "/start_date and /start_time headers" fname)
    | some tg =>
      match da with
      | none => .error (errRule "/start_date and /start_time headers" fname)
      | some (y, mo, dd) =>
        match mkDatetime y mo dd tg.h tg.mi tg.s (digitsToNat (fracMicro tg.frac)) with
        | some dtv => .ok (List.replicate len dtv)
        | none => .error (errRule "/start_date and /start_time headers" fname)

/-- Rule start_date header only (source lines 731-744). -/
def ruleStartDateOnly (fname : String) (startDate : String) (len : Nat) :
    Except String (List PyDateTime) :=
  let da := searchDate startDate.data
  if len = 0 then .ok []
  else
    match da with
    | none => .error (errRule "/start_date header" fname)
    | some (y, mo, dd) =>
      match mkDatetime y mo dd 0 0 0 0 with
      | some dtv => .ok (List.replicate len dtv)
      | none => .error (errRule "/start_date header" fname)

/-- readSB.fd_datetime: the empty-data check, then the first matching
field-combination rule in the source's if/elif order; the final else prints a
warning and returns an empty list. -/
def fd_datetime (sb : SB) : Except String (List PyDateTime) :=
  if sb.length = 0 then
    .error ("ValueError: readSB.data structure is missing for file: " ++ sb.filename)
  else if sb.hasField "date" && sb.hasField "time" then
    ruleDateTime sb.filename (sb.col "date") (sb.col "time")
  else if sb.hasField "year" && sb.hasField "month" && sb.hasField "day" &&
      sb.hasField "hour" && sb.hasField "minute" && sb.hasField "second" then
    ruleYMDHMS sb.filename (sb.col "year") (sb.col "month") (sb.col "day")
      (sb.col "hour") (sb.col "minute") (sb.col "second")
  else if sb.hasField "year" && sb.hasField "month" && sb.hasField "day" &&
      sb.hasField "time" then
    ruleYMDTime sb.filename (sb.col "year") (sb.col "month") (sb.col "day") (sb.col "time")
  else if sb.hasField "date" && sb.hasField "hour" && sb.hasField "minute" &&
      sb.hasField "second" then
    ruleDateHMS sb.filename (sb.col "date") (sb.col "hour") (sb.col "minute")
      (sb.col "second")
  else if sb.hasField "date_time" then
    ruleDateTimeCol
  else if sb.hasField "year" && sb.hasField "sdy" && sb.hasField "hour" &&
      sb.hasField "minute" && sb.hasField "second" then
    ruleYSdyHMS (sb.col "year") (sb.col "sdy") (sb.col "hour")
      (sb.col "minute") (sb.col "second")
  else if sb.hasField "year" && sb.hasField "sdy" && sb.hasField "time" then
    ruleYSdyTime (sb.col "year") (sb.col "sdy") (sb.col "time")
  else if sb.hasHeader "start_date" && sb.hasField "time" then
    ruleStartDateTimeCol sb.filename (sb.hdr "start_date") (sb.col "time")
  else if sb.hasHeader "start_date" && sb.hasField "hour" && sb.hasField "minute" &&
      sb.hasField "second" then
    ruleStartDateHMS sb.filename (sb.hdr "start_date") (sb.col "hour") (sb.col "minute")
      (sb.col "second")
  else if sb.hasField "year" && sb.hasField "month" && sb.hasField "day" &&
      sb.hasField "hour" && sb.hasField "minute" then
    ruleYMDHM sb.filename (sb.col "year") (sb.col "month") (sb.col "day")
      (sb.col "hour") (sb.col "minute")
  else if sb.hasField "date" && sb.hasField "hour" && sb.hasField "minute" then
    ruleDateHM sb.filename (sb.col "date") (sb.col "hour") (sb.col "minute")
  else if sb.hasField "year" && sb.hasField "sdy" && sb.hasField "hour" &&
      sb.hasField "minute" then
    ruleYSdyHM (sb.col "year") (sb.col "sdy") (sb.col "hour") (sb.col "minute")
  else if sb.hasField "year" && sb.hasField "month" && sb.hasField "day" &&
      sb.hasField "hour" then
    ruleYMDH sb.filename (sb.col "year") (sb.col "month") (sb.col "day") (sb.col "hour")
  else if sb.hasField "date" && sb.hasField "hour" then
    ruleDateH sb.filename (sb.col "date") (sb.col "hour")
  else if sb.hasField "year" && sb.hasField "sdy" && sb.hasField "hour" then
    ruleYSdyH (sb.col "year") (sb.col "sdy") (sb.col "hour")
  else if sb.hasField "year" && sb.hasField "month" && sb.hasField "day" then
    ruleYMD sb.filename (sb.col "year") (sb.col "month") (sb.col "day")
  else if sb.hasField "date" then
    ruleDateOnly (sb.col "date")
  else if sb.hasField "year" && sb.hasField "sdy" then
    ruleYSdy (sb.col "year") (sb.col "sdy")
  else if sb.hasHeader "start_date" && sb.hasHeader "start_time" then
    ruleStartDates sb.filename (sb.hdr "start_date") (sb.hdr "start_time") sb.length
  else if sb.hasHeader "start_date" then
    ruleStartDateOnly sb.filename (sb.hdr "start_date") sb.length
  else .ok []

/-! ## Mutation: readSB.addDataToOutput (source lines 753-800) -/

/-- str(self.missing): the sentinel's string form, or the initial empty string
when no sentinel was parsed. -/
def missingStr (m : Option PyFloat) : String :=
  match m with
  | some f => pyStrF f
  | none => ""

/-- addDataToOutput (source lines 753-800): build the sentinel column, extend
the matrix when irow is at or past the current length, default falsy values,
create the column (and extend the fields/units headers) when the field is new -
all mutations the Python object keeps - and then line 787 calls is_number,
which is a local of the initializer and not in scope at method level: the
method always raises, indexing self.data[var_name][irow] first (a possible
IndexError) and otherwise an uncaught NameError, before the overwrite policy
of lines 786-798 can run.  The result is the mutated state paired with the
exception; no return path is exception-free. -/
def addDataToOutput (sb : SB) (irow : Nat) (var_name unitsArg : String)
    (var_value : PyVal) (overwrite : Bool) : SB × Option String :=
  let ms := missingStr sb.missing
  let st0 := if sb.empty_col = [] then
      { sb with empty_col := List.replicate sb.length ms }
    else sb
  let st1 := if irow ≥ st0.length then
      let k := irow + 1 - st0.length
      { st0 with
        length := irow + 1,
        empty_col := st0.empty_col ++ List.replicate k ms,
        data := st0.data.map (fun p => (p.1, p.2 ++ List.replicate k (PyVal.str ms))) }
    else st0
  let _vv := if pyTruthy var_value then var_value else PyVal.str ms
  let un := if unitsArg = "" then "none" else unitsArg
  match odLookup var_name st1.data with
  | some col =>
    match col.get? irow with
    | none => (st1, some "IndexError: list index out of range")
    | some _ => (st1, some "NameError: name is_number is not defined")
  | none =>
    match odLookup "fields" st1.headers with
    | none => (st1, some "KeyError: fields")
    | some fv =>
      let h1 := odUpdate st1.headers ("fields", fv ++ "," ++ var_name)
      let st2 :=
        match odLookup "units" h1 with
        | some uv =>
          { st1 with
            headers := odUpdate h1 ("units", uv ++ "," ++ un.toLower),
            data := st1.data ++ [(var_name, st1.empty_col.map PyVal.str)] }
        | none =>
          { st1 with
            headers := h1,
            warnings := st1.warnings ++ ["Warning: no units found in SeaBASS file header"],
            data := st1.data ++ [(var_name, st1.empty_col.map PyVal.str)] }
      match (st1.empty_col.map PyVal.str).get? irow with
      | none => (st2, some "IndexError: list index out of range")
      | some _ => (st2, some "NameError: name is_number is not defined")

/-! ## The writer: readSB.writeSBfile (source lines 804-852) -/

/-- writeSBfile: the begin marker, each header directive, each comment with its
bang prefix, the end marker, then one delimited line per row.  The delimiter is
resolved from the stored delimiter header (a KeyError when absent; writing any
row with an unrecognized value hits the unbound local).  The per-cell
serialization of lines 837-846 is dead code: line 837 evaluates
self.data[var][i] (a possible IndexError) and then calls is_number, a local of
the initializer not in scope at method level, so the first cell of the first
row raises an uncaught NameError and no data row is ever produced; only a
document with zero rows (or zero columns) gets past the row loop. -/
def writeSBfile (sb : SB) : Except String (List String) :=
  match odLookup "delimiter" sb.headers with
  | none => .error "KeyError: delimiter"
  | some dv =>
    let dOpt : Option String :=
      if strContains dv "comma" then some ","
      else if strContains dv "space" then some " "
      else if strContains dv "tab" then some "\t"
      else none
    let hls := sb.headers.map (fun p => "/" ++ p.1 ++ "=" ++ p.2)
    let cls := sb.comments.map (fun c => "!" ++ c)
    match exceptMap
        (fun i =>
          match exceptMap
              (fun p =>
                match (Prod.snd p).get? i with
                | none => Except.error "IndexError: list index out of range"
                | some _ => Except.error "NameError: name is_number is not defined")
              sb.data with
          | .error e => .error e
          | .ok cells =>
            match dOpt with
            | some d => .ok (String.intercalate d cells)
            | none => .error "UnboundLocalError: local variable referenced before assignment")
        (List.range sb.length) with
    | .error e => .error e
    | .ok rows => .ok ("/begin_header" :: hls ++ cls ++ "/end_header" :: rows)

/-! ## Helper lemmas -/

theorem msToUsAux_eq (n : Nat) : ∀ l : Chars,
    msToUsAux n l = l ++ List.replicate (min n (6 - l.length)) '0' := by
  induction n with
  | zero => intro l; simp [msToUsAux]
  | succ n ih =>
    intro l
    by_cases h : l.length < 6
    · rw [msToUsAux, if_pos h, ih]
      have hk : min (n + 1) (6 - l.length) = min n (6 - (l ++ ['0']).length) + 1 := by
        simp only [List.length_append, List.length_singleton]
        omega
      rw [hk, List.replicate_succ, List.append_assoc]
      rfl
    · have h0 : 6 - l.length = 0 := by omega
      simp [msToUsAux, h, h0]

/-- The while loop of millisecondToMicrosecond right-pads with zeros to 6. -/
theorem msToUs_eq (l : Chars) : msToUs l = l ++ List.replicate (6 - l.length) '0' := by
  rw [msToUs, msToUsAux_eq, Nat.min_eq_right (by omega)]

theorem foldl_digits_zeros (k a : Nat) :
    List.foldl (fun a c => 10 * a + (c.toNat - 48)) a (List.replicate k '0') = a * 10 ^ k := by
  induction k generalizing a with
  | zero => simp
  | succ k ih =>
    rw [List.replicate_succ, List.foldl_cons, ih]
    have h0 : '0'.toNat - 48 = 0 := rfl
    rw [h0]
    ring

theorem digitsToNat_append_zeros (l : Chars) (k : Nat) :
    digitsToNat (l ++ List.replicate k '0') = digitsToNat l * 10 ^ k := by
  rw [digitsToNat, List.foldl_append]
  exact foldl_digits_zeros k _

/-! ## Concrete documents used in witnesses -/

/-- A document whose date/time columns disagree with its
year/month/day/hour/minute/second columns. -/
def sbPriorityDoc : SB :=
  { filename := "f", length := 1,
    data := [("date", [.int 20230615]), ("time", [.str "01:02:03"]),
      ("year", [.int 1999]), ("month", [.int 12]), ("day", [.int 31]),
      ("hour", [.int 23]), ("minute", [.int 58]), ("second", [.int 59])] }

/-- A document with only year and sdy columns, non-leap year. -/
def sbDoy2021 : SB :=
  { filename := "f", length := 1,
    data := [("year", [.int 2021]), ("sdy", [.int 60])] }

/-- A document with only year and sdy columns, leap year. -/
def sbDoy2020 : SB :=
  { filename := "f", length := 1,
    data := [("year", [.int 2020]), ("sdy", [.int 60])] }

/-- An empty-data document that still carries temporal columns and headers. -/
def sbEmptyDoc : SB :=
  { filename := "f", length := 0,
    headers := [("start_date", "20230615")],
    data := [("date", []), ("time", [])] }

/-! ## Claim C10 -/

/-- C10: for every parsed document with row count zero, fd_datetime raises the
ValueError naming the file before evaluating any field-combination rule, even
when temporal columns or start_date headers are present. -/
theorem fd_datetime_empty_data_raises (sb : SB) (h : sb.length = 0) :
    fd_datetime sb =
      .error ("ValueError: readSB.data structure is missing for file: " ++ sb.filename) := by
  simp [fd_datetime, h]

/-- Witness for C10 at a document with date and time columns and a start_date
header present. -/
theorem fd_datetime_empty_data_raises_witness :
    fd_datetime sbEmptyDoc =
      .error "ValueError: readSB.data structure is missing for file: f" :=
  fd_datetime_empty_data_raises sbEmptyDoc rfl

/-! ## Claim C2 -/

/-- C2: whenever both the date and the time columns are present (and the
document has rows), fd_datetime is exactly the date/time rule applied to those
two columns; every other temporal column, including a full disagreeing
year/month/day/hour/minute/second set, is ignored. -/
theorem fd_datetime_date_time_priority (sb : SB) (hl : sb.length ≠ 0)
    (hd : sb.hasField "date" = true) (ht : sb.hasField "time" = true) :
    fd_datetime sb = ruleDateTime sb.filename (sb.col "date") (sb.col "time") := by
  simp [fd_datetime, hl, hd, ht]

/-- Witness for C2: on the document whose two temporal field sets disagree, the
result comes from the date and time columns (2023-06-15 01:02:03), not from the
year/month/day/hour/minute/second columns (1999-12-31 23:58:59). -/
theorem fd_datetime_date_time_priority_witness :
    fd_datetime sbPriorityDoc = .ok [⟨2023, 6, 15, 1, 2, 3, 0⟩] := by
  have h := fd_datetime_date_time_priority sbPriorityDoc (by decide) (by decide) (by decide)
  rw [h]
  rfl

/-! ## Claim C6 -/

/-- C6 (code bug): the helper doy2mndy defined inside the initializer does
convert ordinal day 60 to February 29 in every valid leap year and March 1
otherwise, but it is a local of the initializer and not in scope in
fd_datetime, so the year/sdy rule raises an uncaught NameError on its first
row: fd_datetime on the (2021, 60) and (2020, 60) documents errors instead of
producing March 1, 2021 and February 29, 2020. -/
theorem doy_conversion_scope_bug :
    fd_datetime sbDoy2021 = .error "NameError: name doy2mndy is not defined" ∧
    fd_datetime sbDoy2020 = .error "NameError: name doy2mndy is not defined" ∧
    (∀ y : ℤ, 1 ≤ y → y ≤ 9999 →
      doy2mndy (.int y) (.int 60) =
        .ok (if isLeap y then ((2 : ℤ), (29 : ℤ)) else ((3 : ℤ), (1 : ℤ)))) := by
  refine ⟨by rfl, by rfl, ?_⟩
  intro y h1 h2
  simp only [doy2mndy]
  rw [if_pos ⟨h1, h2⟩]
  have h60 : (1 : ℤ) ≤ 60 ∧ (60 : ℤ) ≤ daysInYear y := by
    refine ⟨by norm_num, ?_⟩
    unfold daysInYear
    split <;> norm_num
  rw [if_pos h60]
  cases hL : isLeap y <;> rfl

/-- Witness for C6: the general part applied at years 2021 and 2020. -/
theorem doy_conversion_scope_bug_witness :
    doy2mndy (.int 2021) (.int 60) = .ok (3, 1) ∧
    doy2mndy (.int 2020) (.int 60) = .ok (2, 29) := by
  constructor
  · have h := doy_conversion_scope_bug.2.2 2021 (by decide) (by decide)
    rw [h]; rfl
  · have h := doy_conversion_scope_bug.2.2 2020 (by decide) (by decide)
    rw [h]; rfl

/-! ## Claim C5 -/

/-- C5: the microsecond component is formed by right-padding the fractional
digits with zeros to six places: for 1 to 6 captured fractional digits the
value is the digit value times 10^(6 - digit count); an absent fractional
group yields zero; and the time string 12:30:45.5 yields 500000 microseconds
through the date/time rule. -/
theorem fractional_seconds_right_padded :
    (∀ ds : Chars, 1 ≤ ds.length → ds.length ≤ 6 → (∀ c ∈ ds, c.isDigit = true) →
      digitsToNat (fracMicro (some ('.' :: ds))) = digitsToNat ds * 10 ^ (6 - ds.length)) ∧
    digitsToNat (fracMicro none) = 0 ∧
    ruleDateTime "f" [.int 20230615] [.str "12:30:45.5"] =
      .ok [⟨2023, 6, 15, 12, 30, 45, 500000⟩] := by
  refine ⟨?_, by rfl, by rfl⟩
  intro ds _h1 _h6 hd
  have hfil : ('.' :: ds).filter (fun c => c ≠ '.') = ds := by
    rw [List.filter_cons]
    simp only [decide_not]
    norm_num
    intro a ha hEq
    subst hEq
    exact absurd (hd '.' ha) (by decide)
  simp only [fracMicro, hfil]
  rw [msToUs_eq, digitsToNat_append_zeros]

/-- Witness for C5: a single fractional digit 5 padded to 500000. -/
theorem fractional_seconds_right_padded_witness :
    digitsToNat (fracMicro (some ['.', '5'])) = 500000 := by
  have h := fractional_seconds_right_padded.1 ['5'] (by decide) (by decide) (by decide)
  rw [h]
  rfl

/-! ## Claim C3 -/

/-- A value already masked to nan compares unequal to every sentinel, so later
masking steps leave it alone. -/
theorem sentEq_nan (o : Option PyFloat) : sentEq (.float .nan) o = false := by
  cases o with
  | none => rfl
  | some f => cases f <;> rfl

/-- Each masking step replaces the value with nan exactly when its flag is on,
its sentinel is present, and the value equals that sentinel. -/
theorem maskStep_eq (flag : Bool) (sent : Option PyFloat) (v : PyVal) :
    maskStep flag sent v = if flag && sentEq v sent then .float .nan else v := by
  cases flag <;> cases sent <;> simp [maskStep, sentEq]

/-- C3: a numeric token is stored as nan exactly when it equals one of the
sentinels whose masking flag is enabled and which is present (each of the
three checks being independent of the others, so an absent sentinel never
disables masking against a different present one); any other numeric token
keeps its coerced int or float value, and a non-numeric token is stored as the
string itself. -/
theorem masking_invariant (ma mb mm : Bool) (adl bdl missing : Option PyFloat) (s : String) :
    (∀ v, coerceToken s = some v →
      processToken ma mb mm adl bdl missing s =
        (if (ma && sentEq v adl) || (mb && sentEq v bdl) || (mm && sentEq v missing) then
          .float .nan
        else v)) ∧
    (coerceToken s = none → processToken ma mb mm adl bdl missing s = .str s) := by
  constructor
  · intro v hv
    simp only [processToken, hv]
    cases hA : ma && sentEq v adl <;> cases hB : mb && sentEq v bdl <;>
      cases hC : mm && sentEq v missing <;>
      simp [maskNumeric, maskStep_eq, hA, hB, hC, sentEq_nan]
  · intro hv
    simp only [processToken, hv]

/-- Witness for C3: with the above-limit sentinel absent but its flag on, the
below-limit sentinel present at 12 and missing present at -999, the token -999
is masked to nan while 42 is preserved as an int. -/
theorem masking_invariant_witness :
    processToken true true true none (some (.finite 12)) (some (.finite (-999))) "-999" =
      .float .nan ∧
    processToken true true true none (some (.finite 12)) (some (.finite (-999))) "42" =
      .int 42 := by
  constructor
  · have h := (masking_invariant true true true none (some (.finite 12))
      (some (.finite (-999))) "-999").1 (.int (-999)) (by rfl)
    rw [h]; rfl
  · have h := (masking_invariant true true true none (some (.finite 12))
      (some (.finite (-999))) "42").1 (.int 42) (by rfl)
    rw [h]; rfl

/-! ## Claim C1 -/

/-- The file of the C1 counterexample: a well-formed one-row file whose single
cell is the missing sentinel itself. -/
def linesC1 : List String :=
  ["/begin_header", "/missing=-999", "/delimiter=comma", "/fields=a", "/end_header", "-999"]

/-- Counterexample to C1: this file parses to a one-row document, yet writing
it back does not reproduce the file - serializing the first cell calls
is_number, a local of the initializer not in scope at method level, so
writeSBfile raises a NameError and produces no output at all. -/
theorem write_roundtrip_counterexample :
    (readSB {} "f.sb" linesC1).map (fun st => (st.length, st.hdr "delimiter")) =
      .ok (1, "comma") ∧
    (readSB {} "f.sb" linesC1).bind writeSBfile =
      .error "NameError: name is_number is not defined" := by
  constructor
  · with_unfolding_all rfl
  · with_unfolding_all rfl

/-- C1 amended: writeSBfile reproduces only the header block: the begin
marker, each stored header directive, each comment with its bang prefix, and
the end marker.  The cell serialization of lines 837-846 never runs: its first
step calls is_number, a local of the initializer not in scope at method level,
so on any document with at least one row and a non-empty first column the
writer raises an uncaught NameError and emits no data row; a zero-row document
yields exactly its header block. -/
theorem write_serialization_never_runs (sb : SB) :
    (∀ dv k c rest, odLookup "delimiter" sb.headers = some dv →
      sb.data = (k, c) :: rest → 1 ≤ sb.length → 1 ≤ c.length →
      writeSBfile sb = .error "NameError: name is_number is not defined") ∧
    (∀ dv, odLookup "delimiter" sb.headers = some dv → sb.length = 0 →
      writeSBfile sb =
        .ok ("/begin_header" :: sb.headers.map (fun p => "/" ++ p.1 ++ "=" ++ p.2) ++
          sb.comments.map (fun c => "!" ++ c) ++ ["/end_header"])) := by
  constructor
  · intro dv k c rest hdv hdata hlen hc
    obtain ⟨m, hm⟩ : ∃ m, sb.length = m + 1 := ⟨sb.length - 1, by omega⟩
    obtain ⟨x, hx⟩ : ∃ x, c.get? 0 = some x := by
      cases hg : c.get? 0 with
      | none => exact absurd (List.get?_eq_none.mp hg) (by omega)
      | some x => exact ⟨x, rfl⟩
    simp only [writeSBfile, hdv, hdata, hm, List.range_succ_eq_map, exceptMap, hx]
  · intro dv hdv hlen
    simp only [writeSBfile, hdv, hlen, List.range_zero, exceptMap]

/-- A one-row one-column document and a zero-row document for the C1
witness. -/
def sbW1 : SB := { headers := [("delimiter", "comma")], data := [("a", [.int 5])], length := 1 }

def sbW0 : SB := { headers := [("delimiter", "comma")], comments := ["c"] }

/-- Witness for C1 amended: the one-row document errors before any output; the
zero-row document round-trips exactly its header block. -/
theorem write_serialization_never_runs_witness :
    writeSBfile sbW1 = .error "NameError: name is_number is not defined" ∧
    writeSBfile sbW0 = .ok ["/begin_header", "/delimiter=comma", "!c", "/end_header"] := by
  constructor
  · exact (write_serialization_never_runs sbW1).1 "comma" "a" [.int 5] []
      rfl rfl (by decide) (by decide)
  · have h := (write_serialization_never_runs sbW0).2 "comma" rfl rfl
    rw [h]; rfl

/-! ## Claim C4 -/

theorem odAppendAt_isSome (k : String) (x : PyVal) :
    ∀ d, (odAppendAt d k x).isSome = (odLookup k d).isSome := by
  intro d
  induction d with
  | nil => rfl
  | cons p rest ih =>
    obtain ⟨ka, col⟩ := p
    by_cases hk : ka = k
    · simp [odAppendAt, odLookup, hk]
    · simp only [odAppendAt, odLookup, if_neg hk]
      rw [← ih]
      cases hr : odAppendAt rest k x <;> simp [hr]

theorem odAppendAt_lookup (k : String) (x : PyVal) :
    ∀ d d', odAppendAt d k x = some d' →
      ∀ k', odLookup k' d' =
        if k' = k then (odLookup k' d).map (fun col => col ++ [x]) else odLookup k' d := by
  intro d
  induction d with
  | nil => intro d' h; simp [odAppendAt] at h
  | cons p rest ih =>
    obtain ⟨ka, col⟩ := p
    intro d' h k'
    by_cases hk : ka = k
    · subst hk
      simp only [odAppendAt, eq_self_iff_true, if_true, Option.some.injEq] at h
      subst h
      by_cases hk' : ka = k'
      · subst hk'
        simp [odLookup]
      · simp [odLookup, hk', Ne.symm hk']
    · simp only [odAppendAt, if_neg hk] at h
      cases hr : odAppendAt rest k x with
      | none => rw [hr] at h; simp at h
      | some rest' =>
        rw [hr] at h
        simp only [Option.some.injEq] at h
        subst h
        by_cases hk' : ka = k'
        · subst hk'
          rw [if_neg hk]
          simp [odLookup]
        · simp only [odLookup, if_neg hk']
          exact ih rest' hr k'

theorem odAppendAll_ok :
    ∀ (pairs : List (String × PyVal)) (d : List (String × List PyVal)),
      (∀ p ∈ pairs, (odLookup p.1 d).isSome = true) →
      ∃ d', odAppendAll d pairs = some d' := by
  intro pairs
  induction pairs with
  | nil => intro d _; exact ⟨d, rfl⟩
  | cons p rest ih =>
    intro d h
    obtain ⟨k0, x0⟩ := p
    have h0 : (odAppendAt d k0 x0).isSome = true := by
      rw [odAppendAt_isSome]
      exact h (k0, x0) (List.mem_cons_self _ _)
    obtain ⟨d1, hd1⟩ := Option.isSome_iff_exists.mp h0
    have hrest : ∀ p ∈ rest, (odLookup p.1 d1).isSome = true := by
      intro q hq
      rw [odAppendAt_lookup k0 x0 d d1 hd1 q.1]
      by_cases hq1 : q.1 = k0
      · rw [if_pos hq1, hq1]
        cases hl : odLookup k0 d with
        | none =>
          have := h (k0, x0) (List.mem_cons_self _ _)
          simp only at this
          rw [hl] at this
          simp at this
        | some col => simp
      · rw [if_neg hq1]
        exact h q (List.mem_cons_of_mem _ hq)
    obtain ⟨d', hd'⟩ := ih d1 hrest
    refine ⟨d', ?_⟩
    simp [odAppendAll, hd1, hd']

theorem odAppendAll_lookup_not_mem :
    ∀ (pairs : List (String × PyVal)) (d d' : List (String × List PyVal)),
      odAppendAll d pairs = some d' →
      ∀ k', k' ∉ pairs.map Prod.fst → odLookup k' d' = odLookup k' d := by
  intro pairs
  induction pairs with
  | nil =>
    intro d d' h k' _
    simp only [odAppendAll, Option.some.injEq] at h
    rw [h]
  | cons p rest ih =>
    intro d d' h k' hk'
    obtain ⟨k0, x0⟩ := p
    simp only [odAppendAll] at h
    cases h0 : odAppendAt d k0 x0 with
    | none => rw [h0] at h; simp at h
    | some d1 =>
      rw [h0] at h
      simp only [List.map_cons, List.mem_cons, not_or] at hk'
      rw [ih d1 d' h k' hk'.2]
      rw [odAppendAt_lookup k0 x0 d d1 h0 k', if_neg hk'.1]

theorem odAppendAll_lookup_mem :
    ∀ (pairs : List (String × PyVal)) (d d' : List (String × List PyVal)),
      odAppendAll d pairs = some d' → (pairs.map Prod.fst).Nodup →
      ∀ k x, (k, x) ∈ pairs →
        odLookup k d' = (odLookup k d).map (fun col => col ++ [x]) := by
  intro pairs
  induction pairs with
  | nil => intro d d' _ _ k x hmem; simp at hmem
  | cons p rest ih =>
    intro d d' h hnd k x hmem
    obtain ⟨k0, x0⟩ := p
    simp only [odAppendAll] at h
    cases h0 : odAppendAt d k0 x0 with
    | none => rw [h0] at h; simp at h
    | some d1 =>
      rw [h0] at h
      simp only [List.map_cons, List.nodup_cons] at hnd
      rcases List.mem_cons.mp hmem with heq | hmem'
      · injection heq with hk hx
        subst hk; subst hx
        rw [odAppendAll_lookup_not_mem rest d1 d' h k hnd.1]
        rw [odAppendAt_lookup k x d d1 h0 k, if_pos rfl]
      · have hkne : ¬k = k0 := by
          intro hEq
          subst hEq
          exact hnd.1 (List.mem_map.mpr ⟨(k, x), hmem', rfl⟩)
        rw [ih d1 d' h hnd.2 k x hmem']
        rw [odAppendAt_lookup k0 x0 d d1 h0 k, if_neg hkne]

theorem map_fst_zip_take {α β : Type} :
    ∀ (l1 : List α) (l2 : List β), (l1.zip l2).map Prod.fst = l1.take l2.length := by
  intro l1
  induction l1 with
  | nil => intro l2; simp
  | cons a l1 ih =>
    intro l2
    cases l2 with
    | nil => simp
    | cons b l2 => simp [ih]

theorem getD_map_lt {α β : Type} (f : α → β) :
    ∀ (l : List α) (i : Nat), i < l.length → ∀ (d : β) (d0 : α),
      (l.map f).getD i d = f (l.getD i d0) := by
  intro l
  induction l with
  | nil => intro i h; simp at h
  | cons a l ih =>
    intro i h d d0
    cases i with
    | zero => rfl
    | succ i =>
      simp only [List.map_cons, List.getD_cons_succ]
      exact ih i (by simpa using h) d d0

/-- The file of the C4 counterexample: two declared fields but a data row with
a single token. -/
def linesC4 : List String :=
  ["/begin_header", "/missing=-999", "/delimiter=comma", "/fields=a,b", "/end_header", "5"]

/-- Counterexample to C4: a data line whose token count (1) differs from the
declared field count (2) does not abort the parse; readSB succeeds, stores the
truncated row (column a gets the token, column b gets nothing), and still
counts the row. -/
theorem row_arity_counterexample :
    (readSB {} "f.sb" linesC4).map
        (fun st => (st.col "a", st.col "b", st.length, st.varsOpt)) =
      .ok ([.int 5], [], 1, some ["a", "b"]) ∧
    (pySplit .comma "5").length = 1 := by
  constructor
  · with_unfolding_all rfl
  · rfl

/-- C4 amended: a post-header non-empty data line whose token count differs
from the field count is zipped to the shorter of the two lists: the parse
always succeeds, the row count is still incremented, every field beyond the
token count keeps its column unchanged, and every field with a token gets
exactly that token's processed value appended. -/
theorem data_row_zip_truncation (cfg : Config) (st : SB) (line : String)
    (vs : List String) (dl : DelimRE)
    (hE : st.endHeader = true) (hv : st.varsOpt = some vs) (hdl : st.delimP = some dl)
    (hkeys : ∀ v ∈ vs, (odLookup v st.data).isSome = true)
    (hnd : vs.Nodup) (hline : line ≠ "") :
    ∃ st', dataStage cfg st line = .ok st' ∧
      st'.length = st.length + 1 ∧
      (∀ v ∈ vs.drop (pySplit dl line).length, odLookup v st'.data = odLookup v st.data) ∧
      (∀ i, i < vs.length → i < (pySplit dl line).length →
        odLookup (vs.getD i "") st'.data =
          (odLookup (vs.getD i "") st.data).map
            (fun col => col ++ [processToken cfg.mask_above_detection_limit
              cfg.mask_below_detection_limit cfg.mask_missing st.adl st.bdl st.missing
              ((pySplit dl line).getD i "")])) := by
  have htoks :
      ((pySplit dl line).map (processToken cfg.mask_above_detection_limit
        cfg.mask_below_detection_limit cfg.mask_missing st.adl st.bdl st.missing)).length =
      (pySplit dl line).length := List.length_map _ _
  set toksP := (pySplit dl line).map (processToken cfg.mask_above_detection_limit
    cfg.mask_below_detection_limit cfg.mask_missing st.adl st.bdl st.missing) with htoksP
  have hfst : (vs.zip toksP).map Prod.fst = vs.take toksP.length := map_fst_zip_take vs toksP
  have hpairs : ∀ p ∈ vs.zip toksP, (odLookup p.1 st.data).isSome = true := by
    intro p hp
    exact hkeys p.1 (List.of_mem_zip hp).1
  obtain ⟨d', hd'⟩ := odAppendAll_ok (vs.zip toksP) st.data hpairs
  have hline' : decide (line ≠ "") = true := by simpa using hline
  refine ⟨{ st with data := d', length := st.length + 1 }, ?_, rfl, ?_, ?_⟩
  · simp only [dataStage, hE, hline', hv, hdl, Bool.true_and, eq_self_iff_true,
      if_true, ← htoksP]
    rw [hd']
  · intro v hvmem
    refine odAppendAll_lookup_not_mem (vs.zip toksP) st.data d' hd' v ?_
    rw [hfst, htoks]
    have hdisj := List.disjoint_take_drop (m := (pySplit dl line).length)
      (n := (pySplit dl line).length) hnd le_rfl
    intro htake
    exact hdisj htake hvmem
  · intro i hi hitoks
    have hitoksP : i < toksP.length := by rw [htoks]; exact hitoks
    have hzlen : i < (vs.zip toksP).length := by
      rw [List.length_zip]
      omega
    have hmem : (vs.getD i "", toksP.getD i (.str "")) ∈ vs.zip toksP := by
      have hget : (vs.zip toksP)[i] = (vs[i], toksP[i]) := List.getElem_zip
      rw [List.getD_eq_getElem vs "" hi, List.getD_eq_getElem toksP (.str "") hitoksP]
      rw [← hget]
      exact List.getElem_mem hzlen
    have hnodup : ((vs.zip toksP).map Prod.fst).Nodup := by
      rw [hfst]
      exact List.Nodup.sublist (List.take_sublist _ _) hnd
    have hlk := odAppendAll_lookup_mem (vs.zip toksP) st.data d' hd' hnodup
      (vs.getD i "") (toksP.getD i (.str "")) hmem
    have htok : toksP.getD i (.str "") = processToken cfg.mask_above_detection_limit
        cfg.mask_below_detection_limit cfg.mask_missing st.adl st.bdl st.missing
        ((pySplit dl line).getD i "") := by
      rw [htoksP]
      exact getD_map_lt _ (pySplit dl line) i hitoks (PyVal.str "") ""
    rw [htok] at hlk
    exact hlk

/-- The concrete state of the C4 witness: header finished, two declared
fields, comma delimiter, both columns empty. -/
def sbC4 : SB :=
  { endHeader := true, varsOpt := some ["a", "b"], delimP := some .comma,
    data := [("a", []), ("b", [])] }

/-- Witness for C4 amended: a concrete one-token line against two fields ends
in success with the token stored under the first field, the second column
untouched, and the row counted. -/
theorem data_row_zip_truncation_witness :
    (dataStage {} sbC4 "5").map
        (fun s => (odLookup "a" s.data, odLookup "b" s.data, s.length)) =
      .ok (some [.int 5], some [], 1) := by
  obtain ⟨st', h1, h2, h3, h4⟩ :=
    data_row_zip_truncation {} sbC4 "5" ["a", "b"] .comma rfl rfl rfl
      (by decide) (by decide) (by decide)
  rw [h1]
  have ha := h4 0 (by decide) (by with_unfolding_all decide)
  have hb := h3 "b" (by with_unfolding_all decide)
  have hgd : ((["a", "b"] : List String).getD 0 "") = "a" := rfl
  rw [hgd] at ha
  have ha' : odLookup "a" st'.data = some [PyVal.int 5] := by
    rw [ha]
    with_unfolding_all rfl
  have hb' : odLookup "b" st'.data = some [] := by
    rw [hb]
    rfl
  simp only [Except.map, ha', hb', h2]
  rfl

/-! ## Claim C9 -/

/-- The file of the C9 counterexample: no line begins with an exclamation
mark, but the data line contains one in its interior. -/
def linesC9 : List String :=
  ["/begin_header", "/missing=-999", "/delimiter=comma", "/fields=a", "/end_header", "x!y"]

/-- Counterexample to C9: the comment list is not the list of lines beginning
with the comment marker.  No line of this file begins with the marker (every
first character differs from it), yet the data line x!y (which is also decoded
into column a) lands in the comment list with its first character stripped,
leaving the marker itself behind. -/
theorem comment_marker_counterexample :
    (readSB {} "f.sb" linesC9).map (fun st => (st.comments, st.col "a", st.length)) =
      .ok (["!y"], [.str "x!y"], 1) ∧
    linesC9.all (fun l => l.data.headD ' ' ≠ '!') = true := by
  constructor
  · with_unfolding_all rfl
  · rfl

/-- What one line contributes to the comment list: its tail (the line minus
its first character, whatever that is) whenever the line contains the marker
anywhere — and, under the default configuration, does not contain the
directive-change marker anywhere. -/
def commentAppend (cfg : Config) (line : String) : List String :=
  if cfg.mask_commented_headers then
    if strContains line "!" && !strContains line "!/" then [line.drop 1] else []
  else
    if strContains line "!" then [line.drop 1] else []

theorem commentStage_eq (cfg : Config) (st : SB) (line : String) :
    commentStage cfg st line = { st with comments := st.comments ++ commentAppend cfg line } := by
  unfold commentStage commentAppend
  split_ifs <;> simp

theorem headerStage_comments (st : SB) (line : String) (st' : SB)
    (h : headerStage st line = .ok st') : st'.comments = st.comments := by
  simp only [headerStage] at h
  split at h
  · split at h
    · simp only [Except.ok.injEq] at h; subst h; rfl
    · simp at h
  · simp only [Except.ok.injEq] at h; subst h; rfl

theorem fieldsStage_comments (st : SB) (line : String) :
    (fieldsStage st line).comments = st.comments := by
  unfold fieldsStage; split <;> rfl

theorem unitsStage_comments (st : SB) (line : String) :
    (unitsStage st line).comments = st.comments := by
  unfold unitsStage; split <;> rfl

theorem duwStage_comments (st : SB) (line : String) :
    (duwStage st line).comments = st.comments := by
  unfold duwStage; split <;> rfl

theorem piStage_comments (st : SB) (line : String) :
    (piStage st line).comments = st.comments := by
  unfold piStage; split <;> rfl

theorem missingStage_comments (st : SB) (line : String) (st' : SB)
    (h : missingStage st line = .ok st') : st'.comments = st.comments := by
  simp only [missingStage] at h
  split at h
  · split at h
    · simp only [Except.ok.injEq] at h; subst h; rfl
    · simp at h
  · simp only [Except.ok.injEq] at h; subst h; rfl

theorem bdlStage_comments (st : SB) (line : String) (st' : SB)
    (h : bdlStage st line = .ok st') : st'.comments = st.comments := by
  simp only [bdlStage] at h
  split at h
  · split at h
    · simp only [Except.ok.injEq] at h; subst h; rfl
    · simp at h
  · simp only [Except.ok.injEq] at h; subst h; rfl

theorem adlStage_comments (st : SB) (line : String) (st' : SB)
    (h : adlStage st line = .ok st') : st'.comments = st.comments := by
  simp only [adlStage] at h
  split at h
  · split at h
    · simp only [Except.ok.injEq] at h; subst h; rfl
    · simp at h
  · simp only [Except.ok.injEq] at h; subst h; rfl

theorem delimStage_comments (st : SB) (line : String) (st' : SB)
    (h : delimStage st line = .ok st') : st'.comments = st.comments := by
  simp only [delimStage] at h
  split at h
  · split_ifs at h <;> simp only [Except.ok.injEq] at h <;> (subst h; rfl)
  · simp only [Except.ok.injEq] at h; subst h; rfl

theorem endHeaderStage_comments (cfg : Config) (st : SB) (line : String)
    (p : SB × Bool) (h : endHeaderStage cfg st line = .ok p) :
    p.1.comments = st.comments := by
  simp only [endHeaderStage] at h
  split at h
  · split at h
    · simp at h
    · split at h
      · simp at h
      · split at h
        · simp at h
        · simp only [Except.ok.injEq] at h; subst h; rfl
  · simp only [Except.ok.injEq] at h; subst h; rfl

theorem dataStage_comments (cfg : Config) (st : SB) (line : String) (st' : SB)
    (h : dataStage cfg st line = .ok st') : st'.comments = st.comments := by
  simp only [dataStage] at h
  split at h
  · split at h
    · split at h
      · simp only [Except.ok.injEq] at h; subst h; rfl
      · simp at h
    · simp at h
  · simp only [Except.ok.injEq] at h; subst h; rfl

/-- C9 amended: any line on which a parse step succeeds extends the comment
list by exactly commentAppend of the line: the line minus its first character
(not a stripped marker) whenever the line contains the marker anywhere in a
file of any region (a data line included), subject to the directive-change
exclusion under the default configuration; every other line leaves the
comment list unchanged. -/
theorem line_comment_semantics (cfg : Config) (st : SB) (line : String) (st' : SB)
    (h : lineStep cfg st line = .ok st') :
    st'.comments = st.comments ++ commentAppend cfg line := by
  simp only [lineStep, bind, Except.bind] at h
  cases h1 : headerStage st line with
  | error e => rw [h1] at h; simp at h
  | ok s1 =>
    rw [h1] at h
    dsimp only at h
    cases h2 : missingStage (unitsStage (fieldsStage s1 line) line) line with
    | error e => rw [h2] at h; simp at h
    | ok s2 =>
      rw [h2] at h
      dsimp only at h
      cases h3 : bdlStage (duwStage s2 line) line with
      | error e => rw [h3] at h; simp at h
      | ok s3 =>
        rw [h3] at h
        dsimp only at h
        cases h4 : adlStage s3 line with
        | error e => rw [h4] at h; simp at h
        | ok s4 =>
          rw [h4] at h
          dsimp only at h
          cases h5 : delimStage (piStage s4 line) line with
          | error e => rw [h5] at h; simp at h
          | ok s5 =>
            rw [h5] at h
            dsimp only at h
            have hc5 : s5.comments = st.comments := by
              rw [delimStage_comments _ line s5 h5, piStage_comments,
                adlStage_comments _ line s4 h4, bdlStage_comments _ line s3 h3,
                duwStage_comments, missingStage_comments _ line s2 h2,
                unitsStage_comments, fieldsStage_comments,
                headerStage_comments st line s1 h1]
            rw [commentStage_eq] at h
            cases h6 : endHeaderStage cfg
                { s5 with comments := s5.comments ++ commentAppend cfg line } line with
            | error e => rw [h6] at h; simp at h
            | ok p =>
              rw [h6] at h
              dsimp only at h
              obtain ⟨s6, b⟩ := p
              have hc6 : s6.comments = s5.comments ++ commentAppend cfg line :=
                endHeaderStage_comments cfg _ line (s6, b) h6
              cases b with
              | true =>
                simp only [Except.ok.injEq] at h
                subst h
                rw [hc6, hc5]
              | false =>
                have hc7 := dataStage_comments cfg s6 line st' h
                rw [hc7, hc6, hc5]

/-! ## Lookup lemmas for ordered-dictionary update -/

theorem odUpdate_lookup {α : Type} (k' k : String) (v : α) :
    ∀ d, odLookup k' (odUpdate d (k, v)) = if k' = k then some v else odLookup k' d := by
  intro d
  induction d with
  | nil =>
    by_cases h : k' = k
    · subst h; simp [odUpdate, odLookup]
    · simp [odUpdate, odLookup, h, Ne.symm h]
  | cons p rest ih =>
    obtain ⟨ka, va⟩ := p
    by_cases hka : ka = k
    · subst hka
      simp only [odUpdate, eq_self_iff_true, if_true]
      by_cases h : k' = ka
      · subst h; simp [odLookup]
      · simp [odLookup, h, Ne.symm h]
    · simp only [odUpdate, if_neg hka]
      by_cases h : ka = k'
      · subst h
        simp [odLookup, hka]
      · simp only [odLookup, if_neg h]
        exact ih

theorem odFoldl_lookup_not_mem {α : Type} (k : String) :
    ∀ (l : List (String × α)) (acc : List (String × α)), k ∉ l.map Prod.fst →
      odLookup k (l.foldl odUpdate acc) = odLookup k acc := by
  intro l
  induction l with
  | nil => intro acc _; rfl
  | cons p rest ih =>
    intro acc hk
    obtain ⟨k0, v0⟩ := p
    simp only [List.map_cons, List.mem_cons, not_or] at hk
    rw [List.foldl_cons, ih _ hk.2, odUpdate_lookup, if_neg hk.1]

theorem odFromList_lookup_not_mem {α : Type} (k : String) (l : List (String × α))
    (h : k ∉ l.map Prod.fst) : odLookup k (odFromList l) = none := by
  rw [odFromList, odFoldl_lookup_not_mem k l [] h]
  rfl

theorem odFoldl_lookup_mem {α : Type} :
    ∀ (l : List (String × α)) (acc : List (String × α)), (l.map Prod.fst).Nodup →
      ∀ k v, (k, v) ∈ l → odLookup k (l.foldl odUpdate acc) = some v := by
  intro l
  induction l with
  | nil => intro acc _ k v hmem; simp at hmem
  | cons p rest ih =>
    intro acc hnd k v hmem
    obtain ⟨k0, v0⟩ := p
    simp only [List.map_cons, List.nodup_cons] at hnd
    rw [List.foldl_cons]
    rcases List.mem_cons.mp hmem with heq | hmem'
    · injection heq with hk hv
      subst hk; subst hv
      rw [odFoldl_lookup_not_mem k rest _ hnd.1, odUpdate_lookup, if_pos rfl]
    · exact ih _ hnd.2 k v hmem'

theorem odFromList_lookup_mem {α : Type} (l : List (String × α))
    (hnd : (l.map Prod.fst).Nodup) (k : String) (v : α) (hmem : (k, v) ∈ l) :
    odLookup k (odFromList l) = some v :=
  odFoldl_lookup_mem l [] hnd k v hmem

/-- The state after feeding the data line x!y to the C4 witness state. -/
def sbC9after : SB :=
  { endHeader := true, varsOpt := some ["a", "b"], delimP := some .comma,
    data := [("a", [.str "x!y"]), ("b", [])], comments := ["!y"], length := 1 }

/-- Witness for C9 amended: the data line x!y appends !y to the comment list. -/
theorem line_comment_semantics_witness :
    lineStep {} sbC4 "x!y" = .ok sbC9after ∧
    sbC9after.comments = sbC4.comments ++ commentAppend {} "x!y" := by
  have hs : lineStep {} sbC4 "x!y" = .ok sbC9after := by with_unfolding_all rfl
  exact ⟨hs, line_comment_semantics {} sbC4 "x!y" sbC9after hs⟩

/-! ## Claim C8 -/

/-- The file of the C8 counterexample: one field, no /units= directive. -/
def linesC8 : List String :=
  ["/begin_header", "/missing=-999", "/delimiter=comma", "/fields=a", "/end_header", "1"]

/-- Counterexample to C8: with the units directive absent, the parsed
variables map sends the field a to its own bare name, not to the unit none;
the suppressible warning is emitted. -/
theorem units_absent_counterexample :
    (readSB {} "f.sb" linesC8).map (fun st => st.variablesMap) =
      .ok [("a", VarVal.solo "a")] ∧
    VarVal.solo "a" ≠ VarVal.pair "a" "none" ∧
    (readSB {} "f.sb" linesC8).map
        (fun st => st.warnings.contains
          "Warning: No valid units were detected in file: f.sb") = .ok true := by
  refine ⟨by with_unfolding_all rfl, by decide, by with_unfolding_all rfl⟩

theorem map_fst_zipWith_pair :
    ∀ (vs us : List String),
      (List.zipWith (fun v u => (v, VarVal.pair v u)) vs us).map Prod.fst =
        vs.take us.length := by
  intro vs
  induction vs with
  | nil => intro us; simp
  | cons a vs ih =>
    intro us
    cases us with
    | nil => simp
    | cons b us => simp [ih]

/-- C8 amended: when both the field and the unit lists are bound, the pairing
is a positional zip silently truncated to the shorter list and no warning is
emitted: each field with index below both lengths maps to (field, unit), and a
field whose index is beyond the unit list is dropped from the variables map
entirely rather than being assigned the unit none.  When the units directive
is absent, a suppressible warning is emitted and every field maps to its own
bare name, again not to the unit none.  When the field list is unbound, the
assignment fails. -/
theorem finalize_variables_semantics (cfg : Config) (st : SB) (vs us : List String)
    (hnd : vs.Nodup) :
    (st.varsOpt = some vs → st.unitsOpt = some us →
      ∃ st', finalizeVars cfg st = .ok st' ∧
        st'.warnings = st.warnings ∧
        (∀ i, i < vs.length → i < us.length →
          odLookup (vs.getD i "") st'.variablesMap =
            some (VarVal.pair (vs.getD i "") (us.getD i ""))) ∧
        (∀ i, i < vs.length → us.length ≤ i →
          odLookup (vs.getD i "") st'.variablesMap = none)) ∧
    (st.varsOpt = some vs → st.unitsOpt = none →
      ∃ st', finalizeVars cfg st = .ok st' ∧
        st'.warnings = st.warnings ++
          (if cfg.no_warn then [] else
            ["Warning: No valid units were detected in file: " ++ st.filename]) ∧
        (∀ v ∈ vs, odLookup v st'.variablesMap = some (VarVal.solo v))) ∧
    (st.varsOpt = none →
      finalizeVars cfg st =
        .error "UnboundLocalError: local variable referenced before assignment") := by
  refine ⟨?_, ?_, ?_⟩
  · intro hv hu
    have hfin : finalizeVars cfg st = .ok { st with variablesMap := odFromList (List.zipWith (fun v u => (v, VarVal.pair v u)) vs us) } := by
      simp [finalizeVars, hv, hu]
    refine ⟨_, hfin, rfl, ?_, ?_⟩
    · intro i hiv hiu
      have hz : i < (List.zipWith (fun v u => (v, VarVal.pair v u)) vs us).length := by
        rw [List.length_zipWith]
        omega
      have hmem : (vs.getD i "", VarVal.pair (vs.getD i "") (us.getD i "")) ∈
          List.zipWith (fun v u => (v, VarVal.pair v u)) vs us := by
        have hget : (List.zipWith (fun v u => (v, VarVal.pair v u)) vs us)[i] =
            (vs[i], VarVal.pair vs[i] us[i]) := List.getElem_zipWith
        rw [List.getD_eq_getElem vs "" hiv, List.getD_eq_getElem us "" hiu, ← hget]
        exact List.getElem_mem hz
      refine odFromList_lookup_mem _ ?_ _ _ hmem
      rw [map_fst_zipWith_pair]
      exact List.Nodup.sublist (List.take_sublist _ _) hnd
    · intro i hiv hiu
      refine odFromList_lookup_not_mem _ _ ?_
      rw [map_fst_zipWith_pair]
      have hdrop : vs.getD i "" ∈ vs.drop us.length := by
        have h1 : i - us.length < (vs.drop us.length).length := by
          rw [List.length_drop]
          omega
        have h2 : (vs.drop us.length)[i - us.length] = vs[us.length + (i - us.length)] :=
          List.getElem_drop _
        have h3 : us.length + (i - us.length) = i := by omega
        rw [List.getD_eq_getElem vs "" hiv]
        have h4 : vs[i] = (vs.drop us.length)[i - us.length] := by
          rw [h2]
          congr 1
          omega
        rw [h4]
        exact List.getElem_mem h1
      have hdisj := List.disjoint_take_drop (m := us.length) (n := us.length) hnd le_rfl
      intro htake
      exact hdisj htake hdrop
  · intro hv hu
    have hfin : finalizeVars cfg st = .ok { st with variablesMap := odFromList (vs.map fun v => (v, VarVal.solo v)), warnings := st.warnings ++ (if cfg.no_warn then [] else ["Warning: No valid units were detected in file: " ++ st.filename]) } := by
      simp [finalizeVars, hv, hu]
    refine ⟨_, hfin, rfl, ?_⟩
    intro v hvmem
    refine odFromList_lookup_mem _ ?_ _ _ (List.mem_map.mpr ⟨v, hvmem, rfl⟩)
    have : (vs.map fun v => (v, VarVal.solo v)).map Prod.fst = vs := by
      have hcomp : (Prod.fst ∘ fun v => (v, VarVal.solo v)) = fun v : String => v := rfl
      rw [List.map_map, hcomp, List.map_id']
    rw [this]
    exact hnd
  · intro hv
    simp [finalizeVars, hv]

/-- The state of the C8 witness: two fields against one unit. -/
def sbC8m : SB := { filename := "f", varsOpt := some ["a", "b"], unitsOpt := some ["m"] }

/-- Witness for C8 amended: the field a pairs with the unit m, the field b is
dropped from the variables map entirely, and no warning is emitted. -/
theorem finalize_variables_semantics_witness :
    (finalizeVars {} sbC8m).map
        (fun s => (odLookup "a" s.variablesMap, odLookup "b" s.variablesMap, s.warnings)) =
      .ok (some (VarVal.pair "a" "m"), none, []) := by
  obtain ⟨st', hok, hw, hin, hout⟩ :=
    (finalize_variables_semantics {} sbC8m ["a", "b"] ["m"] (by decide)).1 rfl rfl
  rw [hok]
  have h1 := hin 0 (by decide) (by decide)
  have h2 := hout 1 (by decide) (by decide)
  have hga : ((["a", "b"] : List String).getD 0 "") = "a" := rfl
  have hgb : ((["a", "b"] : List String).getD 1 "") = "b" := rfl
  have hgm : ((["m"] : List String).getD 0 "") = "m" := rfl
  rw [hga, hgm] at h1
  rw [hgb] at h2
  simp only [Except.map, h1, h2, hw]
  rfl

/-! ## Claim C7 -/

/-- The document of the C7 counterexample and witness: one column, one row,
holding the int 7. -/
def sbC7b : SB :=
  { filename := "f", missing := some (.finite (-999)), length := 1,
    data := [("c", [.int 7])] }

/-- Counterexample to C7: set_value at row 3 of the one-row document does
extend the column with sentinel strings and set the row count to 4, but the
value 5 is never written anywhere - even with overwrite on, the call raises a
NameError (is_number is a local of the initializer, not in scope at method
level) before the write policy of lines 786-798 can run. -/
theorem set_value_scope_counterexample :
    (addDataToOutput sbC7b 3 "c" "u" (.int 5) true).2 =
      some "NameError: name is_number is not defined" ∧
    (addDataToOutput sbC7b 3 "c" "u" (.int 5) true).1.length = 4 ∧
    odLookup "c" (addDataToOutput sbC7b 3 "c" "u" (.int 5) true).1.data =
      some [.int 7, .str "-999.0", .str "-999.0", .str "-999.0"] := by
  refine ⟨by with_unfolding_all rfl, by with_unfolding_all rfl, by with_unfolding_all rfl⟩

theorem odLookup_map_snd (g : List PyVal → List PyVal) (k : String) :
    ∀ d : List (String × List PyVal),
      odLookup k (d.map (fun p => (p.1, g p.2))) = (odLookup k d).map g := by
  intro d
  induction d with
  | nil => rfl
  | cons p rest ih =>
    obtain ⟨ka, col⟩ := p
    by_cases h : ka = k
    · simp [odLookup, h]
    · simp only [List.map_cons, odLookup, if_neg h]
      exact ih

theorem odLookup_map_append (kk : Nat) (ms : String) (k : String)
    (d : List (String × List PyVal)) :
    odLookup k (d.map (fun p => (p.1, p.2 ++ List.replicate kk (PyVal.str ms)))) =
      (odLookup k d).map (fun l => l ++ List.replicate kk (PyVal.str ms)) :=
  odLookup_map_snd (fun l => l ++ List.replicate kk (PyVal.str ms)) k d

theorem get?_append_replicate (col : List PyVal) (k : Nat) (x : PyVal) (i : Nat)
    (h1 : col.length ≤ i) (h2 : i < col.length + k) :
    (col ++ List.replicate k x).get? i = some x := by
  rw [List.get?_append_right h1]
  rw [List.get?_eq_getElem?]
  rw [List.getElem?_replicate]
  rw [if_pos (by omega)]

/-- C7 amended: set_value at a row index at or past the current row count does
extend every existing column with the missing sentinel's string form up to and
including that row and sets the row count to the index plus one - mutations
the object keeps - but line 787 then calls is_number, a local of the
initializer not in scope at method level, so every call raises (an uncaught
NameError once the addressed cell exists) before the write policy of lines
786-798 runs: no call ever completes without an exception, no cell value is
ever written, and at an in-range row the data matrix and row count are left
entirely unchanged. -/
theorem set_value_extension_then_error (sb : SB) (irow : Nat) (var u : String)
    (v : PyVal) (ow : Bool) (col : List PyVal)
    (hcol : odLookup var sb.data = some col) (hlen : col.length = sb.length) :
    (∀ (sb2 : SB) (irow2 : Nat) (var2 u2 : String) (v2 : PyVal) (ow2 : Bool),
      ((addDataToOutput sb2 irow2 var2 u2 v2 ow2).2).isSome = true) ∧
    (sb.length ≤ irow →
      (addDataToOutput sb irow var u v ow).2 =
        some "NameError: name is_number is not defined" ∧
      (addDataToOutput sb irow var u v ow).1.length = irow + 1 ∧
      (∀ k c, odLookup k sb.data = some c →
        odLookup k (addDataToOutput sb irow var u v ow).1.data =
          some (c ++ List.replicate (irow + 1 - sb.length)
            (PyVal.str (missingStr sb.missing))))) ∧
    (irow < sb.length →
      (addDataToOutput sb irow var u v ow).2 =
        some "NameError: name is_number is not defined" ∧
      (addDataToOutput sb irow var u v ow).1.data = sb.data ∧
      (addDataToOutput sb irow var u v ow).1.length = sb.length) := by
  have hdata0 : (if sb.empty_col = [] then { sb with empty_col := List.replicate sb.length (missingStr sb.missing) } else sb).data = sb.data := by
    split <;> rfl
  have hlen0 : (if sb.empty_col = [] then { sb with empty_col := List.replicate sb.length (missingStr sb.missing) } else sb).length = sb.length := by
    split <;> rfl
  refine ⟨?_, ?_, ?_⟩
  · intro sb2 irow2 var2 u2 v2 ow2
    simp only [addDataToOutput]
    repeat' split
    all_goals rfl
  · intro hext
    refine ⟨?_, ?_, ?_⟩
    · simp only [addDataToOutput, hlen0, hdata0]
      rw [if_pos hext]
      dsimp only
      rw [odLookup_map_append, hcol]
      dsimp only [Option.map]
      rw [get?_append_replicate col _ _ irow (by omega) (by omega)]
    · simp only [addDataToOutput, hlen0, hdata0]
      rw [if_pos hext]
      dsimp only
      rw [odLookup_map_append, hcol]
      dsimp only [Option.map]
      rw [get?_append_replicate col _ _ irow (by omega) (by omega)]
    · intro k c hkc
      simp only [addDataToOutput, hlen0, hdata0]
      rw [if_pos hext]
      dsimp only
      rw [odLookup_map_append, hcol]
      dsimp only [Option.map]
      rw [get?_append_replicate col _ _ irow (by omega) (by omega)]
      dsimp only
      rw [odLookup_map_append, hkc]
      rfl
  · intro hin
    have hlt : irow < col.length := by omega
    refine ⟨?_, ?_, ?_⟩
    · simp only [addDataToOutput, hlen0]
      rw [if_neg (by omega : ¬irow ≥ sb.length)]
      rw [hdata0, hcol]
      dsimp only
      rw [List.get?_eq_getElem?, List.getElem?_eq_getElem hlt]
    · simp only [addDataToOutput, hlen0]
      rw [if_neg (by omega : ¬irow ≥ sb.length)]
      rw [hdata0, hcol]
      dsimp only
      rw [List.get?_eq_getElem?, List.getElem?_eq_getElem hlt]
      dsimp only
      exact hdata0
    · simp only [addDataToOutput, hlen0]
      rw [if_neg (by omega : ¬irow ≥ sb.length)]
      rw [hdata0, hcol]
      dsimp only
      rw [List.get?_eq_getElem?, List.getElem?_eq_getElem hlt]
      dsimp only
      exact hlen0

/-- Witness for C7 amended: at row 2 of the one-row document the column is
extended with two sentinel strings and the row count becomes 3, yet the call
errors and the value 5 is nowhere; at row 0 the data matrix is returned
unchanged. -/
theorem set_value_extension_then_error_witness :
    (addDataToOutput sbC7b 2 "c" "u" (.int 5) false).2 =
      some "NameError: name is_number is not defined" ∧
    (addDataToOutput sbC7b 2 "c" "u" (.int 5) false).1.length = 3 ∧
    odLookup "c" (addDataToOutput sbC7b 2 "c" "u" (.int 5) false).1.data =
      some [.int 7, .str "-999.0", .str "-999.0"] ∧
    (addDataToOutput sbC7b 0 "c" "u" (.int 5) false).1.data = sbC7b.data := by
  obtain ⟨h1, h2, h3⟩ :=
    (set_value_extension_then_error sbC7b 2 "c" "u" (.int 5) false [.int 7] rfl rfl).2.1
      (by decide)
  obtain ⟨_, h4, _⟩ :=
    (set_value_extension_then_error sbC7b 0 "c" "u" (.int 5) false [.int 7] rfl rfl).2.2
      (by decide)
  refine ⟨h1, ?_, ?_, h4⟩
  · rw [h2]
  · have h5 := h3 "c" [.int 7] rfl
    rw [h5]
    with_unfolding_all rfl

end SeaBASS
